import Mathlib

/-!
Verification of the graph-construction logic of `streamlit_app.py`
(AunSupertramp/streamlitbubdia).

The function `create_graph_data(df)` and the group-selection loop of the
main application are embedded shallowly: a pandas row becomes an
association list from column names to cell values, the `nodes` dictionary
becomes an association list from cell keys to node records, and Python
exceptions (`KeyError` from missing columns or from `dict['count']` on a
node without a `count` field) become `Except.error`.
-/

set_option maxHeartbeats 1000000

namespace BubDia

/-- A cell of the ingested table: a string, a parsed boolean (grouping
columns), or a missing value (pandas `NaN`). -/
inductive Cell where
  | str (s : String)
  | boolV (b : Bool)
  | nan
deriving DecidableEq, Repr

/-- Python `str()` / f-string rendering of a cell. -/
def Cell.asString : Cell → String
  | .str s => s
  | .boolV true => "True"
  | .boolV false => "False"
  | .nan => "nan"

/-- A row of the dataframe: association list from column names to cells
(a pandas `Series` indexed by the dataframe's columns). -/
abbrev Row := List (String × Cell)

/-- The dataframe handed to `create_graph_data`: the column set plus the
ordered rows. -/
structure DataFrame where
  cols : List String
  rows : List Row
deriving DecidableEq, Repr

/-- Python `row[c]`: looks the column up in the row, raising `KeyError`
when it is absent. -/
def rowGet : Row → String → Except String Cell
  | [], c => .error ("KeyError: " ++ c)
  | p :: ps, c => if p.1 = c then .ok p.2 else rowGet ps c

/-- Lookup in an association list (Python `d[k]` / `k in d`). -/
def assocLookup {α β : Type} [DecidableEq α] : List (α × β) → α → Option β
  | [], _ => none
  | p :: ps, k => if p.1 = k then some p.2 else assocLookup ps k

/-- Python `d[k] = v`: replace the entry if the key is present, else
append a new entry. -/
def assocInsert {α β : Type} [DecidableEq α] : List (α × β) → α → β → List (α × β)
  | [], k, v => [(k, v)]
  | p :: ps, k, v => if p.1 = k then (k, v) :: ps else p :: assocInsert ps k v

/-- The value stored in the `nodes` dictionary: `{'type': 'Interface',
'count': n}`, `{'type': 'System', 'count': n}`, `{'type': 'Sub-Topic',
'label': l}`, or `{'type': 'Group'}`. -/
inductive NodeData where
  | interfaceN (count : Nat)
  | systemN (count : Nat)
  | subTopicN (label : Cell)
  | groupN
deriving DecidableEq, Repr

/-- The node dictionary of `create_graph_data`. -/
abbrev Dict := List (Cell × NodeData)

/-- An element of the `edges` list. -/
structure Edge where
  source : Cell
  target : Cell
  kind : String
  title : Option String
deriving DecidableEq, Repr

/-- Python `nodes[k]['count'] += 1`: raises `KeyError` when the node
record has no `count` field (a Sub-Topic or Group node). -/
def incrCount : NodeData → Except String NodeData
  | .interfaceN c => .ok (.interfaceN (c + 1))
  | .systemN c => .ok (.systemN (c + 1))
  | _ => .error "KeyError: count"

/-- Line 28/30 of the source for one key: `if k not in nodes:
nodes[k] = {'type': t, 'count': 0}`. -/
def bumpBase (nodes : Dict) (k : Cell) (tag : Nat → NodeData) : Dict :=
  if (assocLookup nodes k).isSome then nodes else assocInsert nodes k (tag 0)

/-- Lines 28-31 of the source for one key: the conditional creation
followed by `nodes[k]['count'] += 1`. -/
def bumpNode (nodes : Dict) (k : Cell) (tag : Nat → NodeData) : Except String Dict :=
  match assocLookup (bumpBase nodes k tag) k with
  | some nd =>
    match incrCount nd with
    | .ok nd2 => .ok (assocInsert (bumpBase nodes k tag) k nd2)
    | .error e => .error e
  | none => .error "KeyError: node"

/-- Lines 21-36 of the source for a single row: node registration and the
two hierarchy edges. -/
def processRow (nodes : Dict) (edges : List Edge) (r : Row) : Except String (Dict × List Edge) :=
  match rowGet r "Interface" with
  | .error e => .error e
  | .ok interfaceV =>
  match rowGet r "System" with
  | .error e => .error e
  | .ok systemV =>
  match rowGet r "Sub-Topics" with
  | .error e => .error e
  | .ok subTopicsV =>
  match rowGet r "ID" with
  | .error e => .error e
  | .ok idV =>
    let sub_topic_id := Cell.str (subTopicsV.asString ++ " (" ++ idV.asString ++ ")")
    match bumpNode nodes interfaceV NodeData.interfaceN with
    | .error e => .error e
    | .ok nodes1 =>
    match bumpNode nodes1 systemV NodeData.systemN with
    | .error e => .error e
    | .ok nodes2 =>
      let nodes3 := if (assocLookup nodes2 sub_topic_id).isSome then nodes2
        else assocInsert nodes2 sub_topic_id (NodeData.subTopicN subTopicsV)
      .ok (nodes3,
        edges ++ [{ source := interfaceV, target := systemV, kind := "Hierarchy", title := none },
                  { source := systemV, target := sub_topic_id, kind := "Hierarchy", title := none }])

/-- The first `for _, row in df.iterrows()` loop of `create_graph_data`. -/
def processRows : List Row → Dict → List Edge → Except String (Dict × List Edge)
  | [], nodes, edges => .ok (nodes, edges)
  | r :: rs, nodes, edges =>
    match processRow nodes edges r with
    | .error e => .error e
    | .ok (nodes1, edges1) => processRows rs nodes1 edges1

/-- Line 39: `id_to_subtopic_id_map = {row['ID']:
f"{row['Sub-Topics']} ({row['ID']})" for _, row in df.iterrows()}`. -/
def buildIdMap : List Row → List (Cell × String) → Except String (List (Cell × String))
  | [], acc => .ok acc
  | r :: rs, acc =>
    match rowGet r "ID" with
    | .error e => .error e
    | .ok idV =>
    match rowGet r "Sub-Topics" with
    | .error e => .error e
    | .ok stV =>
      buildIdMap rs (assocInsert acc idV (stV.asString ++ " (" ++ idV.asString ++ ")"))

/-- Python `row[c]` when the column is known to exist; defaults to `nan`
so that it can be used in total filter predicates. -/
def getD (r : Row) (c : String) : Cell :=
  match rowGet r c with
  | .ok v => v
  | .error _ => .nan

/-- Line 42: `df.dropna(subset=['Relationship'])` — raises `KeyError`
when the `Relationship` column is absent from the dataframe, otherwise
keeps the rows whose `Relationship` cell is not missing. -/
def dropnaRelationship (df : DataFrame) : Except String (List Row) :=
  if "Relationship" ∈ df.cols then
    .ok (df.rows.filter (fun r => !(getD r "Relationship" == Cell.nan)))
  else .error "KeyError: [Relationship]"

/-- Digit filtering of line 44: `''.join(filter(str.isdigit, s))`. -/
def digitsOnly (s : String) : String := String.mk (s.data.filter Char.isDigit)

/-- Python `'#' in s`. -/
def containsHash (s : String) : Bool := s.data.any (fun ch => ch == '#')

/-- Line 44: `target_id = f"#{''.join(filter(str.isdigit, target_id_str))}"
if '#' not in target_id_str else target_id_str`. -/
def normTargetStr (target_id_str : String) : String :=
  if containsHash target_id_str then target_id_str else "#" ++ digitsOnly target_id_str

/-- Lines 42-48: the `Relationship` resolution loop. -/
def relLoop (idMap : List (Cell × String)) : List Row → List Edge → Except String (List Edge)
  | [], edges => .ok edges
  | r :: rs, edges =>
    match rowGet r "ID" with
    | .error e => .error e
    | .ok source_id =>
    match rowGet r "Relationship" with
    | .error e => .error e
    | .ok relV =>
      let target_id := normTargetStr relV.asString
      let edges1 :=
        match assocLookup idMap source_id, assocLookup idMap (Cell.str target_id) with
        | some source_node, some target_node =>
          edges ++ [{ source := Cell.str source_node, target := Cell.str target_node,
                      kind := "Relation",
                      title := some ("Relation: " ++ source_id.asString ++ "→" ++ target_id) }]
        | _, _ => edges
      relLoop idMap rs edges1

/-- Line 17 of the source. -/
def standard_cols : List String :=
  ["ID", "Interface", "System", "Topics", "Sub-Topics", "Relationship", "Remark"]

/-- Lines 11-50: `create_graph_data(df)`, returning
`(nodes, edges, grouping_cols)` or the Python exception it raises. -/
def create_graph_data (df : DataFrame) :
    Except String (Dict × List Edge × List String) :=
  match processRows df.rows [] [] with
  | .error e => .error e
  | .ok (nodes, edges) =>
  match buildIdMap df.rows [] with
  | .error e => .error e
  | .ok idMap =>
  match dropnaRelationship df with
  | .error e => .error e
  | .ok relRows =>
  match relLoop idMap relRows edges with
  | .error e => .error e
  | .ok edges2 => .ok (nodes, edges2, df.cols.filter (fun c => decide (¬ c ∈ standard_cols)))

/-- Line 82: `df[df[group] == True]`. -/
def trueRows (df : DataFrame) (g : String) : List Row :=
  df.rows.filter (fun r => getD r g == Cell.boolV true)

/-- Lines 82-85: the inner loop adding `Group` edges for one selected
group column. -/
def groupRowEdges (g : String) (nodes : Dict) : List Row → List Edge → Except String (List Edge)
  | [], edges => .ok edges
  | r :: rs, edges =>
    match rowGet r "Sub-Topics" with
    | .error e => .error e
    | .ok stV =>
    match rowGet r "ID" with
    | .error e => .error e
    | .ok idV =>
      let sub_topic_id := Cell.str (stV.asString ++ " (" ++ idV.asString ++ ")")
      let edges1 := if (assocLookup nodes sub_topic_id).isSome
        then edges ++ [{ source := Cell.str g, target := sub_topic_id,
                         kind := "Group", title := none }]
        else edges
      groupRowEdges g nodes rs edges1

/-- Lines 77-85: the `for group in selected_groups` loop of the main
application. -/
def addGroups (df : DataFrame) : List String → Dict → List Edge → Except String (Dict × List Edge)
  | [], nodes, edges => .ok (nodes, edges)
  | g :: gs, nodes, edges =>
    if g ∈ df.cols then
      match groupRowEdges g (assocInsert nodes (Cell.str g) NodeData.groupN)
          (trueRows df g) edges with
      | .error e => .error e
      | .ok edges1 => addGroups df gs (assocInsert nodes (Cell.str g) NodeData.groupN) edges1
    else addGroups df gs nodes edges

/-- The whole pipeline run by the application after a file upload:
`create_graph_data` followed by the selected-groups loop. -/
def buildWithGroups (df : DataFrame) (selectedGroups : List String) :
    Except String (Dict × List Edge) :=
  match create_graph_data df with
  | .error e => .error e
  | .ok (nodes, edges, _) => addGroups df selectedGroups nodes edges

/-! ### Derived notions used to state the claims -/

/-- Whether a row has a value for the given column. -/
def Row.hasCol (r : Row) (c : String) : Bool := (rowGet r c).toOption.isSome

/-- The row's `Interface` cell. -/
def ifcC (r : Row) : Cell := getD r "Interface"

/-- The row's `System` cell. -/
def sysC (r : Row) : Cell := getD r "System"

/-- The row's `ID` cell. -/
def idC (r : Row) : Cell := getD r "ID"

/-- The row's raw `Sub-Topics` cell. -/
def rawST (r : Row) : Cell := getD r "Sub-Topics"

/-- The sub-topic key string of a row: `"<Sub-Topics> (<ID>)"` (line 24). -/
def skeyStr (r : Row) : String :=
  (rawST r).asString ++ " (" ++ (idC r).asString ++ ")"

/-- The sub-topic key of a row as a node key. -/
def skeyC (r : Row) : Cell := Cell.str (skeyStr r)

/-- The two hierarchy edges a row contributes (lines 35-36). -/
def hierOf (r : Row) : List Edge :=
  [{ source := ifcC r, target := sysC r, kind := "Hierarchy", title := none },
   { source := sysC r, target := skeyC r, kind := "Hierarchy", title := none }]

/-- The relation edges one row of the `Relationship` loop contributes:
one edge when both index lookups succeed, none otherwise (lines 43-48). -/
def relEdgeOf (idMap : List (Cell × String)) (r : Row) : List Edge :=
  match assocLookup idMap (idC r),
      assocLookup idMap (Cell.str (normTargetStr (getD r "Relationship").asString)) with
  | some source_node, some target_node =>
    [{ source := Cell.str source_node, target := Cell.str target_node, kind := "Relation",
       title := some ("Relation: " ++ (idC r).asString ++ "→" ++
         normTargetStr (getD r "Relationship").asString) }]
  | _, _ => []

/-- The group edge a flagged row contributes for group column `g`. -/
def groupEdge (g : String) (r : Row) : Edge :=
  { source := Cell.str g, target := skeyC r, kind := "Group", title := none }

/-- Whether a node key contains the `#` marker. -/
def hashCell : Cell → Bool
  | .str s => containsHash s
  | _ => false

/-- A row all of whose required cells exist, whose `Interface` and
`System` values carry no `#` marker, and whose sub-topic key does carry
one: the regime in which the three node namespaces cannot collide. -/
def cleanRow (r : Row) : Bool :=
  r.hasCol "Interface" && r.hasCol "System" && r.hasCol "Sub-Topics" && r.hasCol "ID" &&
  !hashCell (ifcC r) && !hashCell (sysC r) && containsHash (skeyStr r)

/-- A dataframe is well formed when every row carries exactly the
dataframe's columns (as every pandas row does). -/
def DataFrame.wf (df : DataFrame) : Bool :=
  df.rows.all (fun r => decide (r.map Prod.fst = df.cols))

/-- Whether a node record is a `Sub-Topic` node. -/
def NodeData.isSubTopic : NodeData → Bool
  | .subTopicN _ => true
  | _ => false

/-- Whether a node record is a `Group` node. -/
def NodeData.isGroup : NodeData → Bool
  | .groupN => true
  | _ => false

/-- The number of `Sub-Topic` nodes in a node dictionary. -/
def countSubTopic (nodes : Dict) : Nat :=
  (nodes.filter (fun p => p.2.isSubTopic)).length

/-- The `(Sub-Topics, ID)` string pair of a row. -/
def pairOf (r : Row) : String × String :=
  ((rawST r).asString, (idC r).asString)

/-- Node-dictionary invariant of the first pass: `Sub-Topic` entries sit
at `#`-marked keys, count-bearing entries at unmarked keys, and no
`Group` entry exists. -/
def nodeHashOk : Cell × NodeData → Bool
  | (k, .subTopicN _) => hashCell k
  | (k, .interfaceN _) => !hashCell k
  | (k, .systemN _) => !hashCell k
  | (_, .groupN) => false

/-- The first-pass invariant over a whole dictionary. -/
def stInv (nodes : Dict) : Bool := nodes.all nodeHashOk

/-- The rows kept by `df.dropna(subset=['Relationship'])` once the column
exists. -/
def dropnaRows (df : DataFrame) : List Row :=
  df.rows.filter (fun r => !(getD r "Relationship" == Cell.nan))

/-- The node dictionary produced from `nodes2` by the sub-topic
registration of line 32. -/
def subStep (nodes2 : Dict) (r : Row) : Dict :=
  if (assocLookup nodes2 (skeyC r)).isSome then nodes2
  else assocInsert nodes2 (skeyC r) (NodeData.subTopicN (rawST r))

/-- How many rows carry `v` in their `Interface` column. -/
def cntIfc (rows : List Row) (v : Cell) : Nat :=
  (rows.filter (fun r => decide (ifcC r = v))).length

/-- How many rows carry `v` in their `System` column. -/
def cntSys (rows : List Row) (v : Cell) : Nat :=
  (rows.filter (fun r => decide (sysC r = v))).length

/-- Python `'(' in s`. -/
def containsParen (s : String) : Bool := s.data.any (fun ch => ch == '(')

/-- An `ID` whose rendering carries the `#` marker and no parenthesis:
the regime in which sub-topic keys are injective in the
`(Sub-Topics, ID)` pair. -/
def idClean (r : Row) : Bool :=
  containsHash (idC r).asString && !containsParen (idC r).asString

/-- The string-level sub-topic key builder applied to a
`(Sub-Topics, ID)` pair. -/
def keyFn (p : String × String) : String := p.1 ++ " (" ++ p.2 ++ ")"

/-- Whether both index lookups of the relationship loop succeed for a
row: its own `ID` and its normalized target reference. -/
def bothOkRel (idMap : List (Cell × String)) (r : Row) : Bool :=
  (assocLookup idMap (idC r)).isSome &&
  (assocLookup idMap (Cell.str (normTargetStr (getD r "Relationship").asString))).isSome

/-- Line 18: the grouping-column candidates of a dataframe. -/
def groupingCols (df : DataFrame) : List String :=
  df.cols.filter (fun c => decide (¬ c ∈ standard_cols))

/-- Whether an edge is a `Group` edge emitted from group node `g`. -/
def isGroupEdgeFrom (g : String) (e : Edge) : Bool :=
  e.kind == "Group" && decide (e.source = Cell.str g)

/-- Whether an edge is a `Relation` edge. -/
def isRelationEdge (e : Edge) : Bool := e.kind == "Relation"

/-! ### Concrete tables used as witnesses and counterexamples -/

/-- The standard column list of a fully-populated table. -/
def stdCols : List String :=
  ["ID", "Interface", "System", "Topics", "Sub-Topics", "Relationship"]

/-- A fully-populated row. -/
def mkRow (idv ifc sys top st : String) (rel : Cell) : Row :=
  [("ID", Cell.str idv), ("Interface", Cell.str ifc), ("System", Cell.str sys),
   ("Topics", Cell.str top), ("Sub-Topics", Cell.str st), ("Relationship", rel)]

/-- One well-formed row, no relationship. -/
def dfHier : DataFrame := ⟨stdCols, [mkRow "#1" "I" "S" "t" "a" Cell.nan]⟩

/-- One row carrying a boolean `Critical` grouping column. -/
def dfGroup : DataFrame :=
  ⟨stdCols ++ ["Critical"], [mkRow "#1" "I" "S" "t" "a" Cell.nan ++ [("Critical", Cell.boolV true)]]⟩

/-- Two rows sharing the `ID` value `#1`. -/
def dfDup : DataFrame :=
  ⟨stdCols, [mkRow "#1" "I" "S" "t" "a" Cell.nan, mkRow "#1" "I" "S" "t" "b" Cell.nan]⟩

/-- One row whose relationship reference `#999` is dangling. -/
def dfDangle : DataFrame := ⟨stdCols, [mkRow "#1" "I" "S" "t" "a" (Cell.str "#999")]⟩

/-- Two rows sharing the `Interface` value `A`. -/
def dfTwoIfc : DataFrame :=
  ⟨stdCols, [mkRow "#1" "A" "S" "t" "a" Cell.nan, mkRow "#2" "A" "S" "t" "b" Cell.nan]⟩

/-- One row whose `Interface` and `System` values coincide. -/
def dfSelfLoop : DataFrame := ⟨stdCols, [mkRow "#1" "A" "A" "t" "a" Cell.nan]⟩

/-- One row, `System` column absent. -/
def dfNoSystem : DataFrame :=
  ⟨["ID", "Interface", "Sub-Topics", "Relationship"],
   [[("ID", Cell.str "#1"), ("Interface", Cell.str "I"),
     ("Sub-Topics", Cell.str "a"), ("Relationship", Cell.nan)]]⟩

/-- No rows, `System` column absent. -/
def dfEmptyNoSystem : DataFrame := ⟨["ID", "Interface", "Sub-Topics", "Relationship"], []⟩

/-- One row with all four required columns but no `Relationship` column. -/
def dfNoRel : DataFrame :=
  ⟨["ID", "Interface", "System", "Sub-Topics"],
   [[("ID", Cell.str "#1"), ("Interface", Cell.str "I"),
     ("System", Cell.str "S"), ("Sub-Topics", Cell.str "a")]]⟩

/-- The two-row table of the relationship round-trip scenario: row A has
`ID "#1"` and the given `Relationship` cell, row B has `ID "#10"`. -/
def c3Df (iA sA tA iB sB tB : String) (relA : Cell) : DataFrame :=
  ⟨stdCols, [mkRow "#1" iA sA "t" tA relA, mkRow "#10" iB sB "t" tB Cell.nan]⟩

/-- Two rows with distinct `(Sub-Topics, ID)` pairs whose sub-topic keys
collide: both render as `"a (x (1)"`. -/
def dfC5Collide : DataFrame :=
  ⟨stdCols, [mkRow "1" "I" "S" "t" "a (x" Cell.nan, mkRow "x (1" "I" "S" "t" "a" Cell.nan]⟩

/-- Two rows with the same `Sub-Topics` text and distinct `ID`s. -/
def dfC5Clean : DataFrame :=
  ⟨stdCols, [mkRow "#1" "I" "S" "t" "a" Cell.nan, mkRow "#2" "I" "S" "t" "a" Cell.nan]⟩

/-! ### Association-list lemmas -/

theorem assocLookup_insert_self {α β : Type} [DecidableEq α] (l : List (α × β)) (k : α) (v : β) :
    assocLookup (assocInsert l k v) k = some v := by
  induction l with
  | nil => simp [assocInsert, assocLookup]
  | cons p ps ih =>
    by_cases h : p.1 = k
    · simp [assocInsert, assocLookup, h]
    · simp [assocInsert, assocLookup, h, ih]

theorem assocLookup_insert_ne {α β : Type} [DecidableEq α] (l : List (α × β)) (k : α) (v : β)
    (k' : α) (h : k' ≠ k) :
    assocLookup (assocInsert l k v) k' = assocLookup l k' := by
  induction l with
  | nil => simp [assocInsert, assocLookup, Ne.symm h]
  | cons p ps ih =>
    by_cases hp : p.1 = k
    · subst hp
      simp [assocInsert, assocLookup, Ne.symm h]
    · by_cases hp' : p.1 = k'
      · simp [assocInsert, assocLookup, hp, hp', h]
      · simp [assocInsert, assocLookup, hp, hp', h, ih]

theorem assocInsert_mem {α β : Type} [DecidableEq α] {l : List (α × β)} {k : α} {v : β}
    {p : α × β} (h : p ∈ assocInsert l k v) : p ∈ l ∨ p = (k, v) := by
  induction l with
  | nil => simpa [assocInsert] using h
  | cons q qs ih =>
    by_cases hq : q.1 = k
    · simp only [assocInsert, hq, if_pos rfl] at h
      rcases List.mem_cons.1 h with h1 | h1
      · exact Or.inr h1
      · exact Or.inl (List.mem_cons_of_mem _ h1)
    · simp only [assocInsert, hq, if_neg hq] at h
      rcases List.mem_cons.1 h with h1 | h1
      · exact Or.inl (h1 ▸ List.mem_cons_self _ _)
      · rcases ih h1 with h2 | h2
        · exact Or.inl (List.mem_cons_of_mem _ h2)
        · exact Or.inr h2

theorem assocLookup_isSome_insert {α β : Type} [DecidableEq α] (l : List (α × β)) (k : α) (v : β)
    (k' : α) (h : (assocLookup l k').isSome) :
    (assocLookup (assocInsert l k v) k').isSome := by
  by_cases hk : k' = k
  · subst hk; simp [assocLookup_insert_self]
  · rwa [assocLookup_insert_ne _ _ _ _ hk]

theorem assocLookup_mem {α β : Type} [DecidableEq α] {l : List (α × β)} {k : α} {v : β}
    (h : assocLookup l k = some v) : (k, v) ∈ l := by
  induction l with
  | nil => simp [assocLookup] at h
  | cons p ps ih =>
    by_cases hp : p.1 = k
    · simp only [assocLookup] at h
      rw [if_pos hp] at h
      have hv := Option.some.inj h
      have hpv : p = (k, v) := by
        cases p with
        | mk a b => cases hp; cases hv; rfl
      rw [hpv]
      exact List.mem_cons_self _ _
    · simp only [assocLookup] at h
      rw [if_neg hp] at h
      exact List.mem_cons_of_mem _ (ih h)

theorem assocInsert_keys_nodup {α β : Type} [DecidableEq α] {l : List (α × β)}
    (h : (l.map Prod.fst).Nodup) (k : α) (v : β) :
    ((assocInsert l k v).map Prod.fst).Nodup := by
  induction l with
  | nil => simp [assocInsert]
  | cons p ps ih =>
    by_cases hp : p.1 = k
    · subst hp
      simpa [assocInsert] using h
    · simp only [List.map_cons, List.nodup_cons] at h
      have hmem : p.1 ∉ (assocInsert ps k v).map Prod.fst := by
        intro hc
        rcases List.mem_map.1 hc with ⟨q, hq, hq1⟩
        rcases assocInsert_mem hq with h1 | h1
        · exact h.1 (List.mem_map.2 ⟨q, h1, hq1⟩)
        · exact hp (by rw [h1] at hq1; exact hq1.symm ▸ rfl)
      simp only [assocInsert, if_neg hp, List.map_cons, List.nodup_cons]
      exact ⟨hmem, ih h.2⟩

theorem assocLookup_of_all {α β : Type} [DecidableEq α] {l : List (α × β)} {P : α × β → Bool}
    (h : l.all P = true) {k : α} {v : β} (hl : assocLookup l k = some v) : P (k, v) = true := by
  have := assocLookup_mem hl
  exact List.all_eq_true.1 h _ this

theorem assocInsert_all {α β : Type} [DecidableEq α] {l : List (α × β)} {P : α × β → Bool}
    (h : l.all P = true) {k : α} {v : β} (hkv : P (k, v) = true) :
    (assocInsert l k v).all P = true := by
  rw [List.all_eq_true] at h ⊢
  intro p hp
  rcases assocInsert_mem hp with h1 | h1
  · exact h _ h1
  · exact h1 ▸ hkv

theorem assocInsert_assocInsert {α β : Type} [DecidableEq α] (l : List (α × β)) (k : α)
    (v w : β) : assocInsert (assocInsert l k v) k w = assocInsert l k w := by
  induction l with
  | nil => simp [assocInsert]
  | cons p ps ih =>
    by_cases hp : p.1 = k
    · simp [assocInsert, hp]
    · simp [assocInsert, hp, ih]

/-! ### Row access lemmas -/

theorem getD_of_rowGet {r : Row} {c : String} {v : Cell} (h : rowGet r c = .ok v) :
    getD r c = v := by
  simp [getD, h]

theorem rowGet_of_hasCol {r : Row} {c : String} (h : r.hasCol c = true) :
    rowGet r c = .ok (getD r c) := by
  unfold Row.hasCol at h
  cases hg : rowGet r c with
  | ok v => rw [getD_of_rowGet hg]
  | error e => rw [hg] at h; simp [Except.toOption] at h

theorem rowGet_of_not_hasCol {r : Row} {c : String} (h : r.hasCol c = false) :
    rowGet r c = .error ("KeyError: " ++ c) := by
  induction r with
  | nil => rfl
  | cons p ps ih =>
    by_cases hp : p.1 = c
    · exfalso
      unfold Row.hasCol at h
      rw [show rowGet (p :: ps) c = .ok p.2 from by simp [rowGet, hp]] at h
      simp [Except.toOption] at h
    · have h' : Row.hasCol ps c = false := by
        unfold Row.hasCol at h ⊢
        rwa [show rowGet (p :: ps) c = rowGet ps c from by simp [rowGet, hp]] at h
      rw [show rowGet (p :: ps) c = rowGet ps c from by simp [rowGet, hp]]
      exact ih h'

theorem hasCol_iff_mem_keys (r : Row) (c : String) :
    r.hasCol c = true ↔ c ∈ r.map Prod.fst := by
  induction r with
  | nil => simp [Row.hasCol, rowGet, Except.toOption]
  | cons p ps ih =>
    by_cases hp : p.1 = c
    · simp [Row.hasCol, rowGet, hp, Except.toOption]
    · simpa [Row.hasCol, rowGet, hp, Except.toOption, Ne.symm hp] using ih

theorem wf_hasCol {df : DataFrame} (hwf : df.wf = true) {r : Row} (hr : r ∈ df.rows)
    (c : String) : r.hasCol c = true ↔ c ∈ df.cols := by
  unfold DataFrame.wf at hwf
  have := List.all_eq_true.1 hwf r hr
  have hkeys : r.map Prod.fst = df.cols := of_decide_eq_true this
  rw [hasCol_iff_mem_keys, hkeys]

/-! ### Lemmas about `bumpNode` -/

theorem incrCount_ok_shape {nd nd2 : NodeData} (h : incrCount nd = .ok nd2) :
    (∃ c, nd = .interfaceN c ∧ nd2 = .interfaceN (c + 1)) ∨
    (∃ c, nd = .systemN c ∧ nd2 = .systemN (c + 1)) := by
  cases nd with
  | interfaceN c => exact Or.inl ⟨c, rfl, (Except.ok.inj h).symm⟩
  | systemN c => exact Or.inr ⟨c, rfl, (Except.ok.inj h).symm⟩
  | subTopicN l => simp [incrCount] at h
  | groupN => simp [incrCount] at h

theorem bumpBase_lookup_ne {nodes : Dict} {k : Cell} {tag : Nat → NodeData} {k' : Cell}
    (hk : k' ≠ k) : assocLookup (bumpBase nodes k tag) k' = assocLookup nodes k' := by
  unfold bumpBase
  by_cases hp : (assocLookup nodes k).isSome
  · rw [if_pos hp]
  · rw [if_neg hp, assocLookup_insert_ne _ _ _ _ hk]

theorem bumpNode_ok_decomp {nodes : Dict} {k : Cell} {tag : Nat → NodeData} {nodes' : Dict}
    (h : bumpNode nodes k tag = .ok nodes') :
    ∃ nd nd2,
      assocLookup (bumpBase nodes k tag) k = some nd ∧
      incrCount nd = .ok nd2 ∧
      nodes' = assocInsert (bumpBase nodes k tag) k nd2 := by
  unfold bumpNode at h
  cases hl : assocLookup (bumpBase nodes k tag) k with
  | none => rw [hl] at h; exact absurd h (by simp)
  | some nd =>
    rw [hl] at h
    have h2 : (match incrCount nd with
        | Except.ok nd2 => Except.ok (assocInsert (bumpBase nodes k tag) k nd2)
        | Except.error e => Except.error e) = Except.ok nodes' := h
    cases hi : incrCount nd with
    | error e => rw [hi] at h2; exact absurd h2 (by simp)
    | ok nd2 =>
      rw [hi] at h2
      exact ⟨nd, nd2, rfl, hi, (Except.ok.inj h2).symm⟩

theorem bumpNode_lookup_ne {nodes : Dict} {k : Cell} {tag : Nat → NodeData} {nodes' : Dict}
    (h : bumpNode nodes k tag = .ok nodes') {k' : Cell} (hk : k' ≠ k) :
    assocLookup nodes' k' = assocLookup nodes k' := by
  obtain ⟨nd, nd2, _, _, hres⟩ := bumpNode_ok_decomp h
  rw [hres, assocLookup_insert_ne _ _ _ _ hk, bumpBase_lookup_ne hk]

theorem bumpNode_lookup_self_isSome {nodes : Dict} {k : Cell} {tag : Nat → NodeData}
    {nodes' : Dict} (h : bumpNode nodes k tag = .ok nodes') :
    (assocLookup nodes' k).isSome := by
  obtain ⟨nd, nd2, _, _, hres⟩ := bumpNode_ok_decomp h
  rw [hres, assocLookup_insert_self]
  rfl

theorem bumpNode_not_subTopic {nodes : Dict} {k : Cell} {tag : Nat → NodeData} {nodes' : Dict}
    (h : bumpNode nodes k tag = .ok nodes') (l : Cell) :
    assocLookup nodes k ≠ some (.subTopicN l) := by
  intro hl
  obtain ⟨nd, nd2, hfind, hincr, _⟩ := bumpNode_ok_decomp h
  rw [show bumpBase nodes k tag = nodes from by unfold bumpBase; rw [if_pos (by simp [hl])]]
    at hfind
  rw [hfind] at hl
  have hnd : nd = .subTopicN l := Option.some.inj hl.symm |>.symm
  subst hnd
  simp [incrCount] at hincr

theorem bumpNode_preserve_subTopic {nodes : Dict} {k : Cell} {tag : Nat → NodeData}
    {nodes' : Dict} (h : bumpNode nodes k tag = .ok nodes') {k' : Cell} {l : Cell}
    (hl : assocLookup nodes k' = some (.subTopicN l)) :
    assocLookup nodes' k' = some (.subTopicN l) := by
  by_cases hk : k' = k
  · subst hk; exact absurd hl (bumpNode_not_subTopic h l)
  · rw [bumpNode_lookup_ne h hk]; exact hl

theorem bumpBase_of_some {nodes : Dict} {k : Cell} (tag : Nat → NodeData)
    (h : (assocLookup nodes k).isSome) : bumpBase nodes k tag = nodes := by
  unfold bumpBase; rw [if_pos h]

theorem bumpBase_of_none {nodes : Dict} {k : Cell} (tag : Nat → NodeData)
    (h : assocLookup nodes k = none) :
    bumpBase nodes k tag = assocInsert nodes k (tag 0) := by
  unfold bumpBase; rw [if_neg (by simp [h])]

theorem bumpNode_incr_interface {nodes : Dict} {k : Cell} {c : Nat} (tag : Nat → NodeData)
    (h : assocLookup nodes k = some (.interfaceN c)) :
    bumpNode nodes k tag = .ok (assocInsert nodes k (.interfaceN (c + 1))) := by
  unfold bumpNode
  rw [bumpBase_of_some tag (by simp [h]), h]
  rfl

theorem bumpNode_incr_system {nodes : Dict} {k : Cell} {c : Nat} (tag : Nat → NodeData)
    (h : assocLookup nodes k = some (.systemN c)) :
    bumpNode nodes k tag = .ok (assocInsert nodes k (.systemN (c + 1))) := by
  unfold bumpNode
  rw [bumpBase_of_some tag (by simp [h]), h]
  rfl

theorem bumpNode_fresh {nodes : Dict} {k : Cell} {tag : Nat → NodeData}
    (htag : ∀ m, incrCount (tag m) = .ok (tag (m + 1)))
    (h : assocLookup nodes k = none) :
    bumpNode nodes k tag = .ok (assocInsert nodes k (tag 1)) := by
  unfold bumpNode
  rw [bumpBase_of_none tag h, assocLookup_insert_self]
  show (match incrCount (tag 0) with
    | Except.ok nd2 => Except.ok (assocInsert (assocInsert nodes k (tag 0)) k nd2)
    | Except.error e => Except.error e) = _
  rw [htag 0]
  show Except.ok (assocInsert (assocInsert nodes k (tag 0)) k (tag 1)) = _
  rw [assocInsert_assocInsert]

theorem bumpNode_present_mono {nodes : Dict} {k : Cell} {tag : Nat → NodeData} {nodes' : Dict}
    (h : bumpNode nodes k tag = .ok nodes') {k' : Cell}
    (hp : (assocLookup nodes k').isSome) : (assocLookup nodes' k').isSome := by
  by_cases hk : k' = k
  · subst hk; exact bumpNode_lookup_self_isSome h
  · rw [bumpNode_lookup_ne h hk]; exact hp

theorem bumpNode_keys_nodup {nodes : Dict} {k : Cell} {tag : Nat → NodeData} {nodes' : Dict}
    (h : bumpNode nodes k tag = .ok nodes') (hn : (nodes.map Prod.fst).Nodup) :
    (nodes'.map Prod.fst).Nodup := by
  obtain ⟨nd, nd2, _, _, hres⟩ := bumpNode_ok_decomp h
  subst hres
  unfold bumpBase
  by_cases hp : (assocLookup nodes k).isSome
  · rw [if_pos hp]; exact assocInsert_keys_nodup hn _ _
  · rw [if_neg hp]; exact assocInsert_keys_nodup (assocInsert_keys_nodup hn _ _) _ _

theorem bumpNode_mem_subTopic {nodes : Dict} {k : Cell} {tag : Nat → NodeData} {nodes' : Dict}
    (h : bumpNode nodes k tag = .ok nodes')
    (htag : ∀ m l, tag m ≠ .subTopicN l) {k' : Cell} {l : Cell}
    (hm : (k', NodeData.subTopicN l) ∈ nodes') : (k', NodeData.subTopicN l) ∈ nodes := by
  obtain ⟨nd, nd2, hfind, hincr, hres⟩ := bumpNode_ok_decomp h
  subst hres
  rcases assocInsert_mem hm with h1 | h1
  · unfold bumpBase at h1
    by_cases hp : (assocLookup nodes k).isSome
    · rwa [if_pos hp] at h1
    · rw [if_neg hp] at h1
      rcases assocInsert_mem h1 with h2 | h2
      · exact h2
      · exact absurd (congrArg Prod.snd h2) (fun hc => htag 0 l hc.symm)
  · exfalso
    have h2 := congrArg Prod.snd h1
    simp only at h2
    rcases incrCount_ok_shape hincr with ⟨c, _, hnd2⟩ | ⟨c, _, hnd2⟩ <;> simp [hnd2] at h2

theorem bumpNode_mem_group {nodes : Dict} {k : Cell} {tag : Nat → NodeData} {nodes' : Dict}
    (h : bumpNode nodes k tag = .ok nodes')
    (htag : ∀ m, tag m ≠ .groupN) {k' : Cell}
    (hm : (k', NodeData.groupN) ∈ nodes') : (k', NodeData.groupN) ∈ nodes := by
  obtain ⟨nd, nd2, hfind, hincr, hres⟩ := bumpNode_ok_decomp h
  subst hres
  rcases assocInsert_mem hm with h1 | h1
  · unfold bumpBase at h1
    by_cases hp : (assocLookup nodes k).isSome
    · rwa [if_pos hp] at h1
    · rw [if_neg hp] at h1
      rcases assocInsert_mem h1 with h2 | h2
      · exact h2
      · exact absurd (congrArg Prod.snd h2) (fun hc => htag 0 hc.symm)
  · exfalso
    have h2 := congrArg Prod.snd h1
    simp only at h2
    rcases incrCount_ok_shape hincr with ⟨c, _, hnd2⟩ | ⟨c, _, hnd2⟩ <;> simp [hnd2] at h2

/-! ### Lemmas about `processRow` and `processRows` -/

theorem processRow_ok_decomp {nodes : Dict} {edges : List Edge} {r : Row}
    {out : Dict × List Edge} (h : processRow nodes edges r = .ok out) :
    ∃ na nb,
      bumpNode nodes (ifcC r) NodeData.interfaceN = .ok na ∧
      bumpNode na (sysC r) NodeData.systemN = .ok nb ∧
      out.1 = subStep nb r ∧
      out.2 = edges ++ hierOf r := by
  cases h1 : rowGet r "Interface" with
  | error e => simp [processRow, h1] at h
  | ok iv =>
  cases h2 : rowGet r "System" with
  | error e => simp [processRow, h1, h2] at h
  | ok sv =>
  cases h3 : rowGet r "Sub-Topics" with
  | error e => simp [processRow, h1, h2, h3] at h
  | ok tv =>
  cases h4 : rowGet r "ID" with
  | error e => simp [processRow, h1, h2, h3, h4] at h
  | ok dv =>
    have hIfc : ifcC r = iv := getD_of_rowGet h1
    have hSys : sysC r = sv := getD_of_rowGet h2
    have hST : rawST r = tv := getD_of_rowGet h3
    have hId : idC r = dv := getD_of_rowGet h4
    have hKey : skeyC r = Cell.str (tv.asString ++ " (" ++ dv.asString ++ ")") := by
      unfold skeyC skeyStr
      rw [hST, hId]
    simp only [processRow, h1, h2, h3, h4] at h
    cases h5 : bumpNode nodes iv NodeData.interfaceN with
    | error e => simp [h5] at h
    | ok na =>
    cases h6 : bumpNode na sv NodeData.systemN with
    | error e => simp [h5, h6] at h
    | ok nb =>
      simp only [h5, h6] at h
      refine ⟨na, nb, by rw [hIfc]; exact h5, by rw [hSys]; exact h6, ?_, ?_⟩
      · have := congrArg Prod.fst (Except.ok.inj h)
        simp only at this
        rw [← this]
        unfold subStep
        rw [hKey, hST]
      · have := congrArg Prod.snd (Except.ok.inj h)
        simp only at this
        rw [← this]
        unfold hierOf
        rw [hIfc, hSys, hKey]

theorem processRows_cons_ok {r : Row} {rs : List Row} {nodes : Dict} {edges : List Edge}
    {out : Dict × List Edge} (h : processRows (r :: rs) nodes edges = .ok out) :
    ∃ n1 e1, processRow nodes edges r = .ok (n1, e1) ∧ processRows rs n1 e1 = .ok out := by
  unfold processRows at h
  cases h1 : processRow nodes edges r with
  | error e => rw [h1] at h; exact absurd h (by simp)
  | ok p =>
    obtain ⟨n1, e1⟩ := p
    rw [h1] at h
    exact ⟨n1, e1, rfl, h⟩

theorem processRows_ok_edges {rows : List Row} {nodes : Dict} {edges : List Edge}
    {out : Dict × List Edge} (h : processRows rows nodes edges = .ok out) :
    out.2 = edges ++ rows.flatMap hierOf := by
  induction rows generalizing nodes edges with
  | nil =>
    have := Except.ok.inj h
    rw [← this]
    simp
  | cons r rs ih =>
    obtain ⟨n1, e1, h1, h2⟩ := processRows_cons_ok h
    obtain ⟨na, nb, _, _, _, hE⟩ := processRow_ok_decomp h1
    have := ih h2
    rw [this]
    simp only at hE
    rw [hE]
    simp

/-! ### The sub-topic registration step -/

theorem subStep_lookup_ne {nodes2 : Dict} {r : Row} {k : Cell} (hk : k ≠ skeyC r) :
    assocLookup (subStep nodes2 r) k = assocLookup nodes2 k := by
  unfold subStep
  by_cases hp : (assocLookup nodes2 (skeyC r)).isSome
  · rw [if_pos hp]
  · rw [if_neg hp, assocLookup_insert_ne _ _ _ _ hk]

theorem subStep_skey_present (nodes2 : Dict) (r : Row) :
    (assocLookup (subStep nodes2 r) (skeyC r)).isSome := by
  unfold subStep
  by_cases hp : (assocLookup nodes2 (skeyC r)).isSome
  · rw [if_pos hp]; exact hp
  · rw [if_neg hp, assocLookup_insert_self]; rfl

theorem subStep_present_mono {nodes2 : Dict} {r : Row} {k : Cell}
    (hp : (assocLookup nodes2 k).isSome) : (assocLookup (subStep nodes2 r) k).isSome := by
  by_cases hk : k = skeyC r
  · subst hk; exact subStep_skey_present _ _
  · rw [subStep_lookup_ne hk]; exact hp

theorem subStep_preserve_subTopic {nodes2 : Dict} {r : Row} {k : Cell} {l : Cell}
    (hl : assocLookup nodes2 k = some (.subTopicN l)) :
    assocLookup (subStep nodes2 r) k = some (.subTopicN l) := by
  by_cases hk : k = skeyC r
  · subst hk
    unfold subStep
    rw [if_pos (by simp [hl])]
    exact hl
  · rw [subStep_lookup_ne hk]; exact hl

theorem subStep_mem_subTopic {nodes2 : Dict} {r : Row} {k : Cell} {l : Cell}
    (hm : (k, NodeData.subTopicN l) ∈ subStep nodes2 r) :
    (k, NodeData.subTopicN l) ∈ nodes2 ∨ (k = skeyC r ∧ l = rawST r) := by
  unfold subStep at hm
  by_cases hp : (assocLookup nodes2 (skeyC r)).isSome
  · rw [if_pos hp] at hm; exact Or.inl hm
  · rw [if_neg hp] at hm
    rcases assocInsert_mem hm with h1 | h1
    · exact Or.inl h1
    · right
      refine ⟨congrArg Prod.fst h1, ?_⟩
      have := congrArg Prod.snd h1
      simpa using this

theorem subStep_mem_group {nodes2 : Dict} {r : Row} {k : Cell}
    (hm : (k, NodeData.groupN) ∈ subStep nodes2 r) : (k, NodeData.groupN) ∈ nodes2 := by
  unfold subStep at hm
  by_cases hp : (assocLookup nodes2 (skeyC r)).isSome
  · rwa [if_pos hp] at hm
  · rw [if_neg hp] at hm
    rcases assocInsert_mem hm with h1 | h1
    · exact h1
    · exact absurd (congrArg Prod.snd h1) (by simp)

theorem subStep_keys_nodup {nodes2 : Dict} {r : Row} (h : (nodes2.map Prod.fst).Nodup) :
    ((subStep nodes2 r).map Prod.fst).Nodup := by
  unfold subStep
  by_cases hp : (assocLookup nodes2 (skeyC r)).isSome
  · rwa [if_pos hp]
  · rw [if_neg hp]; exact assocInsert_keys_nodup h _ _

/-! ### Structural facts about the whole first pass -/

theorem processRows_present_mono {rows : List Row} {nodes : Dict} {edges : List Edge}
    {out : Dict × List Edge} (h : processRows rows nodes edges = .ok out) {k : Cell}
    (hp : (assocLookup nodes k).isSome) : (assocLookup out.1 k).isSome := by
  induction rows generalizing nodes edges with
  | nil =>
    have := Except.ok.inj h
    rw [← this]
    exact hp
  | cons r rs ih =>
    obtain ⟨n1, e1, h1, h2⟩ := processRows_cons_ok h
    obtain ⟨na, nb, h5, h6, hN, _⟩ := processRow_ok_decomp h1
    simp only at hN
    have hpa := bumpNode_present_mono h5 hp
    have hpb := bumpNode_present_mono h6 hpa
    have hp1 : (assocLookup n1 k).isSome := by rw [hN]; exact subStep_present_mono hpb
    exact ih h2 hp1

theorem processRows_skey_present {rows : List Row} {nodes : Dict} {edges : List Edge}
    {out : Dict × List Edge} (h : processRows rows nodes edges = .ok out) :
    ∀ r ∈ rows, (assocLookup out.1 (skeyC r)).isSome := by
  induction rows generalizing nodes edges with
  | nil => intro r hr; exact absurd hr (List.not_mem_nil _)
  | cons r0 rs ih =>
    intro r hr
    obtain ⟨n1, e1, h1, h2⟩ := processRows_cons_ok h
    obtain ⟨na, nb, h5, h6, hN, _⟩ := processRow_ok_decomp h1
    simp only at hN
    rcases List.mem_cons.1 hr with hr0 | hrs
    · subst hr0
      have hp1 : (assocLookup n1 (skeyC r)).isSome := by
        rw [hN]; exact subStep_skey_present _ _
      exact processRows_present_mono h2 hp1
    · exact ih h2 r hrs

theorem processRows_preserve_subTopic {rows : List Row} {nodes : Dict} {edges : List Edge}
    {out : Dict × List Edge} (h : processRows rows nodes edges = .ok out) {k : Cell} {l : Cell}
    (hl : assocLookup nodes k = some (.subTopicN l)) :
    assocLookup out.1 k = some (.subTopicN l) := by
  induction rows generalizing nodes edges with
  | nil =>
    have := Except.ok.inj h
    rw [← this]
    exact hl
  | cons r rs ih =>
    obtain ⟨n1, e1, h1, h2⟩ := processRows_cons_ok h
    obtain ⟨na, nb, h5, h6, hN, _⟩ := processRow_ok_decomp h1
    simp only at hN
    have hla := bumpNode_preserve_subTopic h5 hl
    have hlb := bumpNode_preserve_subTopic h6 hla
    have hl1 : assocLookup n1 k = some (.subTopicN l) := by
      rw [hN]; exact subStep_preserve_subTopic hlb
    exact ih h2 hl1

theorem processRows_mem_subTopic {rows : List Row} {nodes : Dict} {edges : List Edge}
    {out : Dict × List Edge} (h : processRows rows nodes edges = .ok out) {k : Cell} {l : Cell}
    (hm : (k, NodeData.subTopicN l) ∈ out.1) :
    (k, NodeData.subTopicN l) ∈ nodes ∨ ∃ r ∈ rows, k = skeyC r ∧ l = rawST r := by
  induction rows generalizing nodes edges with
  | nil =>
    have := Except.ok.inj h
    rw [← this] at hm
    exact Or.inl hm
  | cons r rs ih =>
    obtain ⟨n1, e1, h1, h2⟩ := processRows_cons_ok h
    obtain ⟨na, nb, h5, h6, hN, _⟩ := processRow_ok_decomp h1
    simp only at hN
    rcases ih h2 with h3 | ⟨r', hr', hk⟩
    · rw [hN] at h3
      rcases subStep_mem_subTopic h3 with h4 | h4
      · have hb := bumpNode_mem_subTopic h6 (fun m l' => by simp) h4
        have ha := bumpNode_mem_subTopic h5 (fun m l' => by simp) hb
        exact Or.inl ha
      · exact Or.inr ⟨r, List.mem_cons_self _ _, h4⟩
    · exact Or.inr ⟨r', List.mem_cons_of_mem _ hr', hk⟩

theorem processRows_mem_group {rows : List Row} {nodes : Dict} {edges : List Edge}
    {out : Dict × List Edge} (h : processRows rows nodes edges = .ok out) {k : Cell}
    (hm : (k, NodeData.groupN) ∈ out.1) : (k, NodeData.groupN) ∈ nodes := by
  induction rows generalizing nodes edges with
  | nil =>
    have := Except.ok.inj h
    rw [← this] at hm
    exact hm
  | cons r rs ih =>
    obtain ⟨n1, e1, h1, h2⟩ := processRows_cons_ok h
    obtain ⟨na, nb, h5, h6, hN, _⟩ := processRow_ok_decomp h1
    simp only at hN
    have h3 := ih h2
    rw [hN] at h3
    have h4 := subStep_mem_group h3
    have hb := bumpNode_mem_group h6 (fun m => by simp) h4
    exact bumpNode_mem_group h5 (fun m => by simp) hb

theorem processRows_keys_nodup {rows : List Row} {nodes : Dict} {edges : List Edge}
    {out : Dict × List Edge} (h : processRows rows nodes edges = .ok out)
    (hn : (nodes.map Prod.fst).Nodup) : (out.1.map Prod.fst).Nodup := by
  induction rows generalizing nodes edges with
  | nil =>
    have := Except.ok.inj h
    rw [← this]
    exact hn
  | cons r rs ih =>
    obtain ⟨n1, e1, h1, h2⟩ := processRows_cons_ok h
    obtain ⟨na, nb, h5, h6, hN, _⟩ := processRow_ok_decomp h1
    simp only at hN
    have hna := bumpNode_keys_nodup h5 hn
    have hnb := bumpNode_keys_nodup h6 hna
    have hn1 : (n1.map Prod.fst).Nodup := by rw [hN]; exact subStep_keys_nodup hnb
    exact ih h2 hn1

/-! ### Count lemmas for `Interface` and `System` nodes -/

theorem processRows_count_interface_some {rows : List Row} {nodes : Dict} {edges : List Edge}
    {out : Dict × List Edge} {v : Cell} {c : Nat}
    (h : processRows rows nodes edges = .ok out)
    (hside : ∀ r ∈ rows, sysC r ≠ v ∧ skeyC r ≠ v)
    (hv : assocLookup nodes v = some (.interfaceN c)) :
    assocLookup out.1 v = some (.interfaceN (c + cntIfc rows v)) := by
  induction rows generalizing nodes edges c with
  | nil =>
    have := Except.ok.inj h
    rw [← this]
    simpa [cntIfc] using hv
  | cons r rs ih =>
    obtain ⟨n1, e1, h1, h2⟩ := processRows_cons_ok h
    obtain ⟨na, nb, h5, h6, hN, _⟩ := processRow_ok_decomp h1
    simp only at hN
    have hsideR := hside r (List.mem_cons_self _ _)
    have hsideRs : ∀ x ∈ rs, sysC x ≠ v ∧ skeyC x ≠ v :=
      fun x hx => hside x (List.mem_cons_of_mem _ hx)
    by_cases hif : ifcC r = v
    · rw [hif] at h5
      have h5x := bumpNode_incr_interface NodeData.interfaceN hv
      have hna : na = assocInsert nodes v (.interfaceN (c + 1)) :=
        Except.ok.inj (h5.symm.trans h5x)
      have hva : assocLookup na v = some (.interfaceN (c + 1)) := by
        rw [hna, assocLookup_insert_self]
      have hvb : assocLookup nb v = some (.interfaceN (c + 1)) := by
        rw [bumpNode_lookup_ne h6 (Ne.symm hsideR.1)]
        exact hva
      have hv1 : assocLookup n1 v = some (.interfaceN (c + 1)) := by
        rw [hN, subStep_lookup_ne (Ne.symm hsideR.2)]
        exact hvb
      have hout := ih h2 hsideRs hv1
      have hcnt : cntIfc (r :: rs) v = cntIfc rs v + 1 := by
        simp [cntIfc, hif]
      rw [hout, hcnt]
      have : c + 1 + cntIfc rs v = c + (cntIfc rs v + 1) := by omega
      rw [this]
    · have hva : assocLookup na v = some (.interfaceN c) := by
        rw [bumpNode_lookup_ne h5 (fun hh => hif hh.symm)]
        exact hv
      have hvb : assocLookup nb v = some (.interfaceN c) := by
        rw [bumpNode_lookup_ne h6 (Ne.symm hsideR.1)]
        exact hva
      have hv1 : assocLookup n1 v = some (.interfaceN c) := by
        rw [hN, subStep_lookup_ne (Ne.symm hsideR.2)]
        exact hvb
      have hout := ih h2 hsideRs hv1
      have hcnt : cntIfc (r :: rs) v = cntIfc rs v := by
        simp [cntIfc, hif]
      rw [hout, hcnt]

theorem processRows_count_interface_none {rows : List Row} {nodes : Dict} {edges : List Edge}
    {out : Dict × List Edge} {v : Cell}
    (h : processRows rows nodes edges = .ok out)
    (hside : ∀ r ∈ rows, sysC r ≠ v ∧ skeyC r ≠ v)
    (hv : assocLookup nodes v = none) :
    assocLookup out.1 v =
      (if cntIfc rows v = 0 then none else some (.interfaceN (cntIfc rows v))) := by
  induction rows generalizing nodes edges with
  | nil =>
    have := Except.ok.inj h
    rw [← this]
    simpa [cntIfc] using hv
  | cons r rs ih =>
    obtain ⟨n1, e1, h1, h2⟩ := processRows_cons_ok h
    obtain ⟨na, nb, h5, h6, hN, _⟩ := processRow_ok_decomp h1
    simp only at hN
    have hsideR := hside r (List.mem_cons_self _ _)
    have hsideRs : ∀ x ∈ rs, sysC x ≠ v ∧ skeyC x ≠ v :=
      fun x hx => hside x (List.mem_cons_of_mem _ hx)
    by_cases hif : ifcC r = v
    · rw [hif] at h5
      have h5x := @bumpNode_fresh nodes v NodeData.interfaceN (fun m => rfl) hv
      have hna : na = assocInsert nodes v (.interfaceN 1) :=
        Except.ok.inj (h5.symm.trans h5x)
      have hva : assocLookup na v = some (.interfaceN 1) := by
        rw [hna, assocLookup_insert_self]
      have hvb : assocLookup nb v = some (.interfaceN 1) := by
        rw [bumpNode_lookup_ne h6 (Ne.symm hsideR.1)]
        exact hva
      have hv1 : assocLookup n1 v = some (.interfaceN 1) := by
        rw [hN, subStep_lookup_ne (Ne.symm hsideR.2)]
        exact hvb
      have hout := processRows_count_interface_some h2 hsideRs hv1
      have hcnt : cntIfc (r :: rs) v = cntIfc rs v + 1 := by
        simp [cntIfc, hif]
      rw [hout, hcnt, if_neg (by omega)]
      have : 1 + cntIfc rs v = cntIfc rs v + 1 := by omega
      rw [this]
    · have hva : assocLookup na v = none := by
        rw [bumpNode_lookup_ne h5 (fun hh => hif hh.symm)]
        exact hv
      have hvb : assocLookup nb v = none := by
        rw [bumpNode_lookup_ne h6 (Ne.symm hsideR.1)]
        exact hva
      have hv1 : assocLookup n1 v = none := by
        rw [hN, subStep_lookup_ne (Ne.symm hsideR.2)]
        exact hvb
      have hout := ih h2 hsideRs hv1
      have hcnt : cntIfc (r :: rs) v = cntIfc rs v := by
        simp [cntIfc, hif]
      rw [hout, hcnt]

theorem processRows_count_system_some {rows : List Row} {nodes : Dict} {edges : List Edge}
    {out : Dict × List Edge} {v : Cell} {c : Nat}
    (h : processRows rows nodes edges = .ok out)
    (hside : ∀ r ∈ rows, ifcC r ≠ v ∧ skeyC r ≠ v)
    (hv : assocLookup nodes v = some (.systemN c)) :
    assocLookup out.1 v = some (.systemN (c + cntSys rows v)) := by
  induction rows generalizing nodes edges c with
  | nil =>
    have := Except.ok.inj h
    rw [← this]
    simpa [cntSys] using hv
  | cons r rs ih =>
    obtain ⟨n1, e1, h1, h2⟩ := processRows_cons_ok h
    obtain ⟨na, nb, h5, h6, hN, _⟩ := processRow_ok_decomp h1
    simp only at hN
    have hsideR := hside r (List.mem_cons_self _ _)
    have hsideRs : ∀ x ∈ rs, ifcC x ≠ v ∧ skeyC x ≠ v :=
      fun x hx => hside x (List.mem_cons_of_mem _ hx)
    have hva : assocLookup na v = some (.systemN c) := by
      rw [bumpNode_lookup_ne h5 (Ne.symm hsideR.1)]
      exact hv
    by_cases hsy : sysC r = v
    · rw [hsy] at h6
      have h6x := bumpNode_incr_system NodeData.systemN hva
      have hnb : nb = assocInsert na v (.systemN (c + 1)) :=
        Except.ok.inj (h6.symm.trans h6x)
      have hvb : assocLookup nb v = some (.systemN (c + 1)) := by
        rw [hnb, assocLookup_insert_self]
      have hv1 : assocLookup n1 v = some (.systemN (c + 1)) := by
        rw [hN, subStep_lookup_ne (Ne.symm hsideR.2)]
        exact hvb
      have hout := ih h2 hsideRs hv1
      have hcnt : cntSys (r :: rs) v = cntSys rs v + 1 := by
        simp [cntSys, hsy]
      rw [hout, hcnt]
      have : c + 1 + cntSys rs v = c + (cntSys rs v + 1) := by omega
      rw [this]
    · have hvb : assocLookup nb v = some (.systemN c) := by
        rw [bumpNode_lookup_ne h6 (fun hh => hsy hh.symm)]
        exact hva
      have hv1 : assocLookup n1 v = some (.systemN c) := by
        rw [hN, subStep_lookup_ne (Ne.symm hsideR.2)]
        exact hvb
      have hout := ih h2 hsideRs hv1
      have hcnt : cntSys (r :: rs) v = cntSys rs v := by
        simp [cntSys, hsy]
      rw [hout, hcnt]

theorem processRows_count_system_none {rows : List Row} {nodes : Dict} {edges : List Edge}
    {out : Dict × List Edge} {v : Cell}
    (h : processRows rows nodes edges = .ok out)
    (hside : ∀ r ∈ rows, ifcC r ≠ v ∧ skeyC r ≠ v)
    (hv : assocLookup nodes v = none) :
    assocLookup out.1 v =
      (if cntSys rows v = 0 then none else some (.systemN (cntSys rows v))) := by
  induction rows generalizing nodes edges with
  | nil =>
    have := Except.ok.inj h
    rw [← this]
    simpa [cntSys] using hv
  | cons r rs ih =>
    obtain ⟨n1, e1, h1, h2⟩ := processRows_cons_ok h
    obtain ⟨na, nb, h5, h6, hN, _⟩ := processRow_ok_decomp h1
    simp only at hN
    have hsideR := hside r (List.mem_cons_self _ _)
    have hsideRs : ∀ x ∈ rs, ifcC x ≠ v ∧ skeyC x ≠ v :=
      fun x hx => hside x (List.mem_cons_of_mem _ hx)
    have hva : assocLookup na v = none := by
      rw [bumpNode_lookup_ne h5 (Ne.symm hsideR.1)]
      exact hv
    by_cases hsy : sysC r = v
    · rw [hsy] at h6
      have h6x := @bumpNode_fresh na v NodeData.systemN (fun m => rfl) hva
      have hnb : nb = assocInsert na v (.systemN 1) :=
        Except.ok.inj (h6.symm.trans h6x)
      have hvb : assocLookup nb v = some (.systemN 1) := by
        rw [hnb, assocLookup_insert_self]
      have hv1 : assocLookup n1 v = some (.systemN 1) := by
        rw [hN, subStep_lookup_ne (Ne.symm hsideR.2)]
        exact hvb
      have hout := processRows_count_system_some h2 hsideRs hv1
      have hcnt : cntSys (r :: rs) v = cntSys rs v + 1 := by
        simp [cntSys, hsy]
      rw [hout, hcnt, if_neg (by omega)]
      have : 1 + cntSys rs v = cntSys rs v + 1 := by omega
      rw [this]
    · have hvb : assocLookup nb v = none := by
        rw [bumpNode_lookup_ne h6 (fun hh => hsy hh.symm)]
        exact hva
      have hv1 : assocLookup n1 v = none := by
        rw [hN, subStep_lookup_ne (Ne.symm hsideR.2)]
        exact hvb
      have hout := ih h2 hsideRs hv1
      have hcnt : cntSys (r :: rs) v = cntSys rs v := by
        simp [cntSys, hsy]
      rw [hout, hcnt]

/-! ### Option helpers -/

theorem option_map_or {α β : Type} (f : α → β) (x y : Option α) :
    (x.or y).map f = (x.map f).or (y.map f) := by
  cases x <;> rfl

theorem option_or_assoc {α : Type} (x y z : Option α) :
    (x.or y).or z = x.or (y.or z) := by
  cases x <;> rfl

theorem option_or_none {α : Type} (x : Option α) : x.or none = x := by
  cases x <;> rfl

theorem option_none_or {α : Type} (x : Option α) : Option.or none x = x := rfl

/-! ### Invariant-based success of the first pass -/

theorem bumpNode_clean_ok {nodes : Dict} {k : Cell} {tag : Nat → NodeData}
    (hinv : stInv nodes = true) (hk : hashCell k = false)
    (htagOk : ∀ m, nodeHashOk (k, tag m) = true)
    (htag : ∀ m, incrCount (tag m) = .ok (tag (m + 1))) :
    ∃ nodes2, bumpNode nodes k tag = .ok nodes2 ∧ stInv nodes2 = true := by
  cases hl : assocLookup nodes k with
  | none =>
    exact ⟨_, bumpNode_fresh htag hl, assocInsert_all hinv (htagOk 1)⟩
  | some nd =>
    have hok : nodeHashOk (k, nd) = true := assocLookup_of_all hinv hl
    cases nd with
    | interfaceN c =>
      exact ⟨_, bumpNode_incr_interface tag hl,
        assocInsert_all hinv (by simp [nodeHashOk, hk])⟩
    | systemN c =>
      exact ⟨_, bumpNode_incr_system tag hl,
        assocInsert_all hinv (by simp [nodeHashOk, hk])⟩
    | subTopicN l =>
      exfalso
      rw [show nodeHashOk (k, NodeData.subTopicN l) = hashCell k from rfl, hk] at hok
      exact Bool.false_ne_true hok
    | groupN =>
      exfalso
      exact Bool.false_ne_true hok

theorem cleanRow_parts {r : Row} (hc : cleanRow r = true) :
    r.hasCol "Interface" = true ∧ r.hasCol "System" = true ∧
    r.hasCol "Sub-Topics" = true ∧ r.hasCol "ID" = true ∧
    hashCell (ifcC r) = false ∧ hashCell (sysC r) = false ∧
    containsHash (skeyStr r) = true := by
  unfold cleanRow at hc
  simp only [Bool.and_eq_true] at hc
  refine ⟨hc.1.1.1.1.1.1, hc.1.1.1.1.1.2, hc.1.1.1.1.2, hc.1.1.1.2, ?_, ?_, hc.2⟩
  · have := hc.1.1.2
    cases hv : hashCell (ifcC r)
    · rfl
    · rw [hv] at this; exact absurd this (by simp)
  · have := hc.1.2
    cases hv : hashCell (sysC r)
    · rfl
    · rw [hv] at this; exact absurd this (by simp)

theorem hashCell_skeyC (r : Row) : hashCell (skeyC r) = containsHash (skeyStr r) := rfl

theorem processRow_clean_ok {nodes : Dict} {edges : List Edge} {r : Row}
    (hc : cleanRow r = true) (hinv : stInv nodes = true) :
    ∃ n1 e1, processRow nodes edges r = .ok (n1, e1) ∧ stInv n1 = true := by
  obtain ⟨hA, hB, hC, hD, hE, hF, hG⟩ := cleanRow_parts hc
  have g1 : rowGet r "Interface" = .ok (ifcC r) := rowGet_of_hasCol hA
  have g2 : rowGet r "System" = .ok (sysC r) := rowGet_of_hasCol hB
  have g3 : rowGet r "Sub-Topics" = .ok (rawST r) := rowGet_of_hasCol hC
  have g4 : rowGet r "ID" = .ok (idC r) := rowGet_of_hasCol hD
  obtain ⟨na, hna, hinva⟩ := @bumpNode_clean_ok nodes (ifcC r) NodeData.interfaceN hinv hE
    (fun m => by simp [nodeHashOk, hE]) (fun m => rfl)
  obtain ⟨nb, hnb, hinvb⟩ := @bumpNode_clean_ok na (sysC r) NodeData.systemN hinva hF
    (fun m => by simp [nodeHashOk, hF]) (fun m => rfl)
  refine ⟨subStep nb r, edges ++ hierOf r, ?_, ?_⟩
  · simp only [processRow, g1, g2, g3, g4, hna, hnb]
    rfl
  · unfold subStep
    by_cases hp : (assocLookup nb (skeyC r)).isSome
    · rw [if_pos hp]; exact hinvb
    · rw [if_neg hp]
      refine assocInsert_all hinvb ?_
      rw [show nodeHashOk (skeyC r, NodeData.subTopicN (rawST r)) = hashCell (skeyC r)
        from rfl, hashCell_skeyC, hG]

theorem processRows_clean_ok {rows : List Row} {nodes : Dict} {edges : List Edge}
    (hall : rows.all cleanRow = true) (hinv : stInv nodes = true) :
    ∃ out, processRows rows nodes edges = .ok out ∧ stInv out.1 = true := by
  induction rows generalizing nodes edges with
  | nil => exact ⟨(nodes, edges), rfl, hinv⟩
  | cons r rs ih =>
    simp only [List.all_cons, Bool.and_eq_true] at hall
    obtain ⟨n1, e1, h1, hinv1⟩ := processRow_clean_ok hall.1 hinv
    obtain ⟨out, h2, hinv2⟩ := ih hall.2 hinv1
    refine ⟨out, ?_, hinv2⟩
    unfold processRows
    rw [h1]
    exact h2

theorem processRows_skey_subTopic {rows : List Row} {nodes : Dict} {edges : List Edge}
    {out : Dict × List Edge} (h : processRows rows nodes edges = .ok out)
    (hall : rows.all cleanRow = true) (hinv : stInv nodes = true) :
    ∀ r ∈ rows, ∃ l, assocLookup out.1 (skeyC r) = some (.subTopicN l) := by
  induction rows generalizing nodes edges with
  | nil => intro r hr; exact absurd hr (List.not_mem_nil _)
  | cons r0 rs ih =>
    intro r hr
    simp only [List.all_cons, Bool.and_eq_true] at hall
    obtain ⟨n1, e1, h1, h2⟩ := processRows_cons_ok h
    obtain ⟨n1x, e1x, h1x, hinv1⟩ := processRow_clean_ok hall.1 hinv
    have hpair : n1x = n1 ∧ e1x = e1 := by
      have := Except.ok.inj (h1x.symm.trans h1)
      exact ⟨congrArg Prod.fst this, congrArg Prod.snd this⟩
    rw [hpair.1] at hinv1
    rcases List.mem_cons.1 hr with hr0 | hrs
    · subst hr0
      obtain ⟨na, nb, h5, h6, hN, _⟩ := processRow_ok_decomp h1
      simp only at hN
      have hp : (assocLookup n1 (skeyC r)).isSome := by
        rw [hN]; exact subStep_skey_present _ _
      obtain ⟨nd, hnd⟩ := Option.isSome_iff_exists.1 hp
      have hok : nodeHashOk (skeyC r, nd) = true := assocLookup_of_all hinv1 hnd
      obtain ⟨_, _, _, _, _, _, hG⟩ := cleanRow_parts hall.1
      cases nd with
      | interfaceN c =>
        exfalso
        rw [show nodeHashOk (skeyC r, NodeData.interfaceN c) = !hashCell (skeyC r) from rfl,
          hashCell_skeyC, hG] at hok
        exact absurd hok (by simp)
      | systemN c =>
        exfalso
        rw [show nodeHashOk (skeyC r, NodeData.systemN c) = !hashCell (skeyC r) from rfl,
          hashCell_skeyC, hG] at hok
        exact absurd hok (by simp)
      | groupN => exact absurd hok (by simp [nodeHashOk])
      | subTopicN l =>
        exact ⟨l, processRows_preserve_subTopic h2 hnd⟩
    · exact ih h2 hall.2 hinv1 r hrs

/-! ### The relationship loop -/

theorem relLoop_ok_edges {idMap : List (Cell × String)} {rrows : List Row} {edges : List Edge}
    {e2 : List Edge} (h : relLoop idMap rrows edges = .ok e2) :
    e2 = edges ++ rrows.flatMap (relEdgeOf idMap) := by
  induction rrows generalizing edges with
  | nil =>
    have := Except.ok.inj h
    rw [← this]
    simp
  | cons r rs ih =>
    cases g1 : rowGet r "ID" with
    | error e => simp [relLoop, g1] at h
    | ok sid =>
    cases g2 : rowGet r "Relationship" with
    | error e => simp [relLoop, g1, g2] at h
    | ok relv =>
      have hid : idC r = sid := getD_of_rowGet g1
      have hrel : getD r "Relationship" = relv := getD_of_rowGet g2
      simp only [relLoop, g1, g2] at h
      have hstep := ih h
      rw [hstep]
      have hre : relEdgeOf idMap r =
          (match assocLookup idMap sid,
              assocLookup idMap (Cell.str (normTargetStr relv.asString)) with
            | some source_node, some target_node =>
              [{ source := Cell.str source_node, target := Cell.str target_node,
                 kind := "Relation",
                 title := some ("Relation: " ++ sid.asString ++ "→" ++
                   normTargetStr relv.asString) }]
            | _, _ => ([] : List Edge)) := by
        unfold relEdgeOf
        rw [hid, hrel]
      rw [List.flatMap_cons, hre]
      rcases hsrc : assocLookup idMap sid with _ | sn <;>
        rcases htgt : assocLookup idMap (Cell.str (normTargetStr relv.asString)) with _ | tn <;>
        simp

theorem relLoop_ok_exists {idMap : List (Cell × String)} {rrows : List Row} {edges : List Edge}
    (hcols : ∀ r ∈ rrows, r.hasCol "ID" = true ∧ r.hasCol "Relationship" = true) :
    ∃ e2, relLoop idMap rrows edges = .ok e2 := by
  induction rrows generalizing edges with
  | nil => exact ⟨edges, rfl⟩
  | cons r rs ih =>
    have hr := hcols r (List.mem_cons_self _ _)
    have hrs : ∀ x ∈ rs, x.hasCol "ID" = true ∧ x.hasCol "Relationship" = true :=
      fun x hx => hcols x (List.mem_cons_of_mem _ hx)
    have g1 : rowGet r "ID" = .ok (idC r) := rowGet_of_hasCol hr.1
    have g2 : rowGet r "Relationship" = .ok (getD r "Relationship") := rowGet_of_hasCol hr.2
    obtain ⟨e2, he2⟩ := @ih (match assocLookup idMap (idC r),
        assocLookup idMap (Cell.str (normTargetStr (getD r "Relationship").asString)) with
      | some source_node, some target_node =>
        edges ++ [{ source := Cell.str source_node, target := Cell.str target_node,
                    kind := "Relation",
                    title := some ("Relation: " ++ (idC r).asString ++ "→" ++
                      normTargetStr (getD r "Relationship").asString) }]
      | _, _ => edges) hrs
    refine ⟨e2, ?_⟩
    simp only [relLoop, g1, g2]
    exact he2

/-! ### The identifier index -/

theorem filter_cons_getLast? {α : Type} (p : α → Bool) (r : α) (rs : List α) :
    ((r :: rs).filter p).getLast? =
      ((rs.filter p).getLast?).or (if p r then some r else none) := by
  by_cases hp : p r
  · rw [List.filter_cons_of_pos hp, if_pos hp]
    cases hf : rs.filter p with
    | nil => simp
    | cons x xs =>
      rw [List.getLast?_cons_cons]
      cases hl : (x :: xs).getLast? with
      | none => simp at hl
      | some y => rfl
  · rw [List.filter_cons_of_neg hp, if_neg hp, option_or_none]

theorem buildIdMap_cons_ok {r : Row} {rs : List Row} {acc m : List (Cell × String)}
    (h : buildIdMap (r :: rs) acc = .ok m) :
    r.hasCol "ID" = true ∧ r.hasCol "Sub-Topics" = true ∧
    buildIdMap rs (assocInsert acc (idC r) (skeyStr r)) = .ok m := by
  cases g1 : rowGet r "ID" with
  | error e => simp [buildIdMap, g1] at h
  | ok idv =>
  cases g2 : rowGet r "Sub-Topics" with
  | error e => simp [buildIdMap, g1, g2] at h
  | ok stv =>
    have hid : idC r = idv := getD_of_rowGet g1
    have hst : rawST r = stv := getD_of_rowGet g2
    have hkey : skeyStr r = stv.asString ++ " (" ++ idv.asString ++ ")" := by
      unfold skeyStr
      rw [hid, hst]
    refine ⟨?_, ?_, ?_⟩
    · unfold Row.hasCol; rw [g1]; rfl
    · unfold Row.hasCol; rw [g2]; rfl
    · simp only [buildIdMap, g1, g2] at h
      rw [hid, hkey]
      exact h

theorem buildIdMap_lookup {rows : List Row} {acc m : List (Cell × String)}
    (h : buildIdMap rows acc = .ok m) (c : Cell) :
    assocLookup m c =
      (((rows.filter (fun r => decide (idC r = c))).getLast?).map skeyStr).or
        (assocLookup acc c) := by
  induction rows generalizing acc with
  | nil =>
    have := Except.ok.inj h
    rw [← this]
    simp
  | cons r rs ih =>
    obtain ⟨_, _, h2⟩ := buildIdMap_cons_ok h
    have hrec := ih h2
    rw [hrec, filter_cons_getLast?, option_map_or, option_or_assoc]
    congr 1
    by_cases hc : idC r = c
    · rw [if_pos (by simp [hc]), hc, assocLookup_insert_self]
      rfl
    · rw [if_neg (by simp [hc]), assocLookup_insert_ne _ _ _ _ (fun hh => hc hh.symm)]
      rfl

theorem buildIdMap_ok_exists {rows : List Row} {acc : List (Cell × String)}
    (hcols : ∀ r ∈ rows, r.hasCol "ID" = true ∧ r.hasCol "Sub-Topics" = true) :
    ∃ m, buildIdMap rows acc = .ok m := by
  induction rows generalizing acc with
  | nil => exact ⟨acc, rfl⟩
  | cons r rs ih =>
    have hr := hcols r (List.mem_cons_self _ _)
    have hrs : ∀ x ∈ rs, x.hasCol "ID" = true ∧ x.hasCol "Sub-Topics" = true :=
      fun x hx => hcols x (List.mem_cons_of_mem _ hx)
    have g1 : rowGet r "ID" = .ok (idC r) := rowGet_of_hasCol hr.1
    have g2 : rowGet r "Sub-Topics" = .ok (getD r "Sub-Topics") := rowGet_of_hasCol hr.2
    obtain ⟨m, hm⟩ := @ih (assocInsert acc (idC r)
      ((getD r "Sub-Topics").asString ++ " (" ++ (idC r).asString ++ ")")) hrs
    refine ⟨m, ?_⟩
    simp only [buildIdMap, g1, g2]
    exact hm

theorem buildIdMap_values {rows : List Row} {acc m : List (Cell × String)}
    (h : buildIdMap rows acc = .ok m) {k : Cell} {w : String} (hm : (k, w) ∈ m) :
    (∃ r ∈ rows, w = skeyStr r) ∨ (k, w) ∈ acc := by
  induction rows generalizing acc with
  | nil =>
    have := Except.ok.inj h
    rw [← this] at hm
    exact Or.inr hm
  | cons r rs ih =>
    obtain ⟨_, _, h2⟩ := buildIdMap_cons_ok h
    rcases ih h2 with h3 | h3
    · obtain ⟨r', hr', hw⟩ := h3
      exact Or.inl ⟨r', List.mem_cons_of_mem _ hr', hw⟩
    · rcases assocInsert_mem h3 with h4 | h4
      · exact Or.inr h4
      · exact Or.inl ⟨r, List.mem_cons_self _ _, congrArg Prod.snd h4⟩

/-! ### Decomposition of `create_graph_data` -/

theorem dropnaRelationship_ok {df : DataFrame} (h : "Relationship" ∈ df.cols) :
    dropnaRelationship df = .ok (dropnaRows df) := by
  unfold dropnaRelationship dropnaRows
  rw [if_pos h]

theorem create_ok_decomp {df : DataFrame} {out : Dict × List Edge × List String}
    (h : create_graph_data df = .ok out) :
    ∃ nodes edges idMap relRows edges2,
      processRows df.rows [] [] = .ok (nodes, edges) ∧
      buildIdMap df.rows [] = .ok idMap ∧
      dropnaRelationship df = .ok relRows ∧
      relLoop idMap relRows edges = .ok edges2 ∧
      out = (nodes, edges2, groupingCols df) := by
  unfold create_graph_data at h
  cases h1 : processRows df.rows [] [] with
  | error e => rw [h1] at h; exact absurd h (by simp)
  | ok p =>
    obtain ⟨nodes, edges⟩ := p
    rw [h1] at h
    cases h2 : buildIdMap df.rows [] with
    | error e => simp only [h2] at h; exact absurd h (by simp)
    | ok idMap =>
      simp only [h2] at h
      cases h3 : dropnaRelationship df with
      | error e => simp only [h3] at h; exact absurd h (by simp)
      | ok relRows =>
        simp only [h3] at h
        cases h4 : relLoop idMap relRows edges with
        | error e => simp only [h4] at h; exact absurd h (by simp)
        | ok edges2 =>
          simp only [h4] at h
          exact ⟨nodes, edges, idMap, relRows, edges2, rfl, rfl, rfl, h4,
            (Except.ok.inj h).symm⟩

theorem create_clean_ok {df : DataFrame} (hwf : df.wf = true)
    (hRel : "Relationship" ∈ df.cols) (hclean : df.rows.all cleanRow = true) :
    ∃ out, create_graph_data df = .ok out := by
  obtain ⟨out1, hpr, hinv1⟩ := @processRows_clean_ok df.rows [] [] hclean rfl
  obtain ⟨nodes, edges⟩ := out1
  have hcols : ∀ r ∈ df.rows, r.hasCol "ID" = true ∧ r.hasCol "Sub-Topics" = true := by
    intro r hr
    obtain ⟨_, _, hC, hD, _, _, _⟩ := cleanRow_parts (List.all_eq_true.1 hclean r hr)
    exact ⟨hD, hC⟩
  obtain ⟨m, hm⟩ := @buildIdMap_ok_exists df.rows [] hcols
  have hrcols : ∀ r ∈ dropnaRows df, r.hasCol "ID" = true ∧ r.hasCol "Relationship" = true := by
    intro r hr
    have hrr : r ∈ df.rows := List.mem_of_mem_filter hr
    obtain ⟨_, _, _, hD, _, _, _⟩ := cleanRow_parts (List.all_eq_true.1 hclean r hrr)
    exact ⟨hD, (wf_hasCol hwf hrr "Relationship").2 hRel⟩
  obtain ⟨e2, he2⟩ := @relLoop_ok_exists m (dropnaRows df) edges hrcols
  refine ⟨(nodes, e2, groupingCols df), ?_⟩
  simp only [create_graph_data, hpr, hm, dropnaRelationship_ok hRel, he2]
  rfl

/-! ### Edge-shape lemmas -/

theorem hierOf_kind {r : Row} {e : Edge} (h : e ∈ hierOf r) : e.kind = "Hierarchy" := by
  unfold hierOf at h
  rcases List.mem_cons.1 h with h1 | h1
  · rw [h1]
  · rcases List.mem_cons.1 h1 with h2 | h2
    · rw [h2]
    · exact absurd h2 (List.not_mem_nil _)

theorem relEdgeOf_mem {idMap : List (Cell × String)} {r : Row} {e : Edge}
    (h : e ∈ relEdgeOf idMap r) :
    ∃ sn tn, assocLookup idMap (idC r) = some sn ∧
      assocLookup idMap
        (Cell.str (normTargetStr (getD r "Relationship").asString)) = some tn ∧
      e = { source := Cell.str sn, target := Cell.str tn, kind := "Relation",
            title := some ("Relation: " ++ (idC r).asString ++ "→" ++
              normTargetStr (getD r "Relationship").asString) } := by
  unfold relEdgeOf at h
  rcases hsrc : assocLookup idMap (idC r) with _ | sn <;>
    rcases htgt : assocLookup idMap
      (Cell.str (normTargetStr (getD r "Relationship").asString)) with _ | tn <;>
    simp only [hsrc, htgt] at h
  · exact absurd h (by simp)
  · exact absurd h (by simp)
  · exact absurd h (by simp)
  · rw [List.mem_singleton] at h
    exact ⟨sn, tn, rfl, rfl, h⟩

theorem relEdgeOf_kind {idMap : List (Cell × String)} {r : Row} {e : Edge}
    (h : e ∈ relEdgeOf idMap r) : e.kind = "Relation" := by
  obtain ⟨sn, tn, _, _, he⟩ := relEdgeOf_mem h
  rw [he]

theorem relEdgeOf_length (idMap : List (Cell × String)) (r : Row) :
    (relEdgeOf idMap r).length = if bothOkRel idMap r then 1 else 0 := by
  unfold relEdgeOf bothOkRel
  rcases hsrc : assocLookup idMap (idC r) with _ | sn <;>
    rcases htgt : assocLookup idMap
      (Cell.str (normTargetStr (getD r "Relationship").asString)) with _ | tn <;>
    simp [hsrc, htgt]

/-! ### The group pass -/

theorem trueRows_sub {df : DataFrame} {g : String} {r : Row} (h : r ∈ trueRows df g) :
    r ∈ df.rows := List.mem_of_mem_filter h

theorem groupRowEdges_ok_edges {g : String} {nodes : Dict} {rr : List Row}
    {edges e2 : List Edge} (h : groupRowEdges g nodes rr edges = .ok e2) :
    e2 = edges ++ rr.flatMap
      (fun r => if (assocLookup nodes (skeyC r)).isSome then [groupEdge g r] else []) := by
  induction rr generalizing edges with
  | nil =>
    have := Except.ok.inj h
    rw [← this]
    simp
  | cons r rs ih =>
    cases g1 : rowGet r "Sub-Topics" with
    | error e => simp [groupRowEdges, g1] at h
    | ok stv =>
    cases g2 : rowGet r "ID" with
    | error e => simp [groupRowEdges, g1, g2] at h
    | ok idv =>
      have hst : rawST r = stv := getD_of_rowGet g1
      have hid : idC r = idv := getD_of_rowGet g2
      have hkey : skeyC r = Cell.str (stv.asString ++ " (" ++ idv.asString ++ ")") := by
        unfold skeyC skeyStr
        rw [hst, hid]
      simp only [groupRowEdges, g1, g2] at h
      have hstep := ih h
      have hge : groupEdge g r =
          { source := Cell.str g,
            target := Cell.str (stv.asString ++ " (" ++ idv.asString ++ ")"),
            kind := "Group", title := none } := by
        unfold groupEdge
        rw [hkey]
      rw [hstep, List.flatMap_cons, hge, hkey]
      by_cases hp : (assocLookup nodes
          (Cell.str (stv.asString ++ " (" ++ idv.asString ++ ")"))).isSome
      · rw [if_pos hp, if_pos hp]
        simp
      · rw [if_neg hp, if_neg hp]
        simp

theorem groupRowEdges_ok_exists {g : String} {nodes : Dict} {rr : List Row}
    (hcols : ∀ r ∈ rr, r.hasCol "Sub-Topics" = true ∧ r.hasCol "ID" = true) :
    ∀ edges, ∃ e2, groupRowEdges g nodes rr edges = .ok e2 := by
  induction rr with
  | nil => exact fun edges => ⟨edges, rfl⟩
  | cons r rs ih =>
    intro edges
    have hr := hcols r (List.mem_cons_self _ _)
    have hrs : ∀ x ∈ rs, x.hasCol "Sub-Topics" = true ∧ x.hasCol "ID" = true :=
      fun x hx => hcols x (List.mem_cons_of_mem _ hx)
    have g1 : rowGet r "Sub-Topics" = .ok (rawST r) := rowGet_of_hasCol hr.1
    have g2 : rowGet r "ID" = .ok (idC r) := rowGet_of_hasCol hr.2
    obtain ⟨e2, he2⟩ := ih hrs (if (assocLookup nodes
        (Cell.str ((rawST r).asString ++ " (" ++ (idC r).asString ++ ")"))).isSome
      then edges ++ [(⟨Cell.str g,
          Cell.str ((rawST r).asString ++ " (" ++ (idC r).asString ++ ")"),
          "Group", none⟩ : Edge)]
      else edges)
    refine ⟨e2, ?_⟩
    simp only [groupRowEdges, g1, g2]
    exact he2

theorem flatMap_groupEdge_of_present {g : String} {nodes : Dict} {rr : List Row}
    (hp : ∀ r ∈ rr, (assocLookup nodes (skeyC r)).isSome) :
    (rr.flatMap
      (fun r => if (assocLookup nodes (skeyC r)).isSome then [groupEdge g r] else [])) =
      rr.map (groupEdge g) := by
  induction rr with
  | nil => rfl
  | cons r rs ih =>
    rw [List.flatMap_cons, List.map_cons,
      if_pos (hp r (List.mem_cons_self _ _)),
      ih (fun x hx => hp x (List.mem_cons_of_mem _ hx))]
    rfl

theorem addGroups_cons_ok {df : DataFrame} {g : String} {gs : List String} {nodes : Dict}
    {edges : List Edge} {out : Dict × List Edge}
    (h : addGroups df (g :: gs) nodes edges = .ok out) :
    (g ∈ df.cols ∧ ∃ e1,
      groupRowEdges g (assocInsert nodes (Cell.str g) NodeData.groupN)
        (trueRows df g) edges = .ok e1 ∧
      addGroups df gs (assocInsert nodes (Cell.str g) NodeData.groupN) e1 = .ok out) ∨
    (¬ g ∈ df.cols ∧ addGroups df gs nodes edges = .ok out) := by
  by_cases hg : g ∈ df.cols
  · left
    refine ⟨hg, ?_⟩
    unfold addGroups at h
    rw [if_pos hg] at h
    cases h1 : groupRowEdges g (assocInsert nodes (Cell.str g) NodeData.groupN)
        (trueRows df g) edges with
    | error e => rw [h1] at h; exact absurd h (by simp)
    | ok e1 =>
      rw [h1] at h
      exact ⟨e1, rfl, h⟩
  · right
    refine ⟨hg, ?_⟩
    unfold addGroups at h
    rwa [if_neg hg] at h

theorem addGroups_ok_exists {df : DataFrame} {sel : List String}
    (hok : ∀ r ∈ df.rows, r.hasCol "Sub-Topics" = true ∧ r.hasCol "ID" = true) :
    ∀ nodes edges, ∃ out, addGroups df sel nodes edges = .ok out := by
  induction sel with
  | nil => exact fun nodes edges => ⟨(nodes, edges), rfl⟩
  | cons g gs ih =>
    intro nodes edges
    by_cases hg : g ∈ df.cols
    · obtain ⟨e1, he1⟩ := groupRowEdges_ok_exists
        (fun r hr => hok r (trueRows_sub hr)) edges
      obtain ⟨out, hout⟩ := ih (assocInsert nodes (Cell.str g) NodeData.groupN) e1
      refine ⟨out, ?_⟩
      unfold addGroups
      rw [if_pos hg, he1]
      exact hout
    · obtain ⟨out, hout⟩ := ih nodes edges
      refine ⟨out, ?_⟩
      unfold addGroups
      rw [if_neg hg]
      exact hout

theorem addGroups_lookup_preserve {df : DataFrame} {sel : List String} {nodes : Dict}
    {edges : List Edge} {out : Dict × List Edge}
    (h : addGroups df sel nodes edges = .ok out) {k : Cell}
    (hk : ∀ g ∈ sel, Cell.str g ≠ k) :
    assocLookup out.1 k = assocLookup nodes k := by
  induction sel generalizing nodes edges with
  | nil =>
    have := Except.ok.inj h
    rw [← this]
  | cons g gs ih =>
    have hkg := hk g (List.mem_cons_self _ _)
    have hkgs : ∀ g' ∈ gs, Cell.str g' ≠ k := fun g' hg' => hk g' (List.mem_cons_of_mem _ hg')
    rcases addGroups_cons_ok h with ⟨hg, e1, h1, h2⟩ | ⟨hg, h2⟩
    · rw [ih h2 hkgs, assocLookup_insert_ne _ _ _ _ (fun hh => hkg hh.symm)]
    · exact ih h2 hkgs

theorem addGroups_hit {df : DataFrame} {sel : List String} {nodes : Dict}
    {edges : List Edge} {out : Dict × List Edge}
    (h : addGroups df sel nodes edges = .ok out) (hnd : sel.Nodup) {g : String}
    (hg : g ∈ sel) (hgc : g ∈ df.cols) :
    assocLookup out.1 (Cell.str g) = some NodeData.groupN := by
  induction sel generalizing nodes edges with
  | nil => exact absurd hg (List.not_mem_nil _)
  | cons g0 gs ih =>
    rw [List.nodup_cons] at hnd
    rcases List.mem_cons.1 hg with hg0 | hgs
    · subst hg0
      rcases addGroups_cons_ok h with ⟨_, e1, h1, h2⟩ | ⟨hni, _⟩
      · have hne : ∀ g' ∈ gs, Cell.str g' ≠ Cell.str g := by
          intro g' hg' hc
          have : g' = g := Cell.str.inj hc
          exact hnd.1 (this ▸ hg')
        rw [addGroups_lookup_preserve h2 hne, assocLookup_insert_self]
      · exact absurd hgc hni
    · rcases addGroups_cons_ok h with ⟨_, e1, h1, h2⟩ | ⟨_, h2⟩
      · exact ih h2 hnd.2 hgs
      · exact ih h2 hnd.2 hgs

theorem addGroups_mem_group {df : DataFrame} {sel : List String} {nodes : Dict}
    {edges : List Edge} {out : Dict × List Edge}
    (h : addGroups df sel nodes edges = .ok out) {k : Cell}
    (hm : (k, NodeData.groupN) ∈ out.1) :
    (k, NodeData.groupN) ∈ nodes ∨ ∃ g ∈ sel, g ∈ df.cols ∧ k = Cell.str g := by
  induction sel generalizing nodes edges with
  | nil =>
    have := Except.ok.inj h
    rw [← this] at hm
    exact Or.inl hm
  | cons g0 gs ih =>
    rcases addGroups_cons_ok h with ⟨hg, e1, h1, h2⟩ | ⟨_, h2⟩
    · rcases ih h2 with h3 | ⟨g', hg', hc', hk⟩
      · rcases assocInsert_mem h3 with h4 | h4
        · exact Or.inl h4
        · exact Or.inr ⟨g0, List.mem_cons_self _ _, hg, congrArg Prod.fst h4⟩
      · exact Or.inr ⟨g', List.mem_cons_of_mem _ hg', hc', hk⟩
    · rcases ih h2 with h3 | ⟨g', hg', hc', hk⟩
      · exact Or.inl h3
      · exact Or.inr ⟨g', List.mem_cons_of_mem _ hg', hc', hk⟩

theorem addGroups_present_mono {df : DataFrame} {sel : List String} {nodes : Dict}
    {edges : List Edge} {out : Dict × List Edge}
    (h : addGroups df sel nodes edges = .ok out) {k : Cell}
    (hp : (assocLookup nodes k).isSome) : (assocLookup out.1 k).isSome := by
  induction sel generalizing nodes edges with
  | nil =>
    have := Except.ok.inj h
    rw [← this]
    exact hp
  | cons g0 gs ih =>
    rcases addGroups_cons_ok h with ⟨hg, e1, h1, h2⟩ | ⟨_, h2⟩
    · exact ih h2 (assocLookup_isSome_insert _ _ _ _ hp)
    · exact ih h2 hp

theorem isGroupEdgeFrom_groupEdge_self (g : String) (r : Row) :
    isGroupEdgeFrom g (groupEdge g r) = true := by
  simp [isGroupEdgeFrom, groupEdge]

theorem isGroupEdgeFrom_groupEdge_other {g g' : String} (h : g' ≠ g) (r : Row) :
    isGroupEdgeFrom g' (groupEdge g r) = false := by
  simp [isGroupEdgeFrom, groupEdge]
  intro hc
  exact absurd hc.symm h

theorem mem_flatMapGroup {g : String} {nodes : Dict} {rr : List Row} {e : Edge}
    (h : e ∈ rr.flatMap
      (fun r => if (assocLookup nodes (skeyC r)).isSome then [groupEdge g r] else [])) :
    ∃ r ∈ rr, (assocLookup nodes (skeyC r)).isSome ∧ e = groupEdge g r := by
  rw [List.mem_flatMap] at h
  obtain ⟨r, hr, he⟩ := h
  by_cases hp : (assocLookup nodes (skeyC r)).isSome
  · rw [if_pos hp, List.mem_singleton] at he
    exact ⟨r, hr, hp, he⟩
  · rw [if_neg hp] at he
    exact absurd he (List.not_mem_nil _)

theorem filter_flatMapGroup_self (g : String) (nodes : Dict) (rr : List Row) :
    (rr.flatMap
      (fun r => if (assocLookup nodes (skeyC r)).isSome then [groupEdge g r] else [])).filter
        (isGroupEdgeFrom g) =
    rr.flatMap
      (fun r => if (assocLookup nodes (skeyC r)).isSome then [groupEdge g r] else []) := by
  rw [List.filter_eq_self]
  intro e he
  obtain ⟨r, _, _, hre⟩ := mem_flatMapGroup he
  rw [hre]
  exact isGroupEdgeFrom_groupEdge_self g r

theorem filter_flatMapGroup_other {g g' : String} (h : g' ≠ g) (nodes : Dict) (rr : List Row) :
    (rr.flatMap
      (fun r => if (assocLookup nodes (skeyC r)).isSome then [groupEdge g r] else [])).filter
        (isGroupEdgeFrom g') = [] := by
  rw [List.filter_eq_nil_iff]
  intro e he
  obtain ⟨r, _, _, hre⟩ := mem_flatMapGroup he
  rw [hre, isGroupEdgeFrom_groupEdge_other h]
  exact Bool.false_ne_true

theorem addGroups_edges_notin {df : DataFrame} {sel : List String} {nodes : Dict}
    {edges : List Edge} {out : Dict × List Edge}
    (h : addGroups df sel nodes edges = .ok out) {g : String} (hg : ¬ g ∈ sel) :
    out.2.filter (isGroupEdgeFrom g) = edges.filter (isGroupEdgeFrom g) := by
  induction sel generalizing nodes edges with
  | nil =>
    have := Except.ok.inj h
    rw [← this]
  | cons g0 gs ih =>
    have hg0 : g ≠ g0 := fun hc => hg (hc ▸ List.mem_cons_self _ _)
    have hgs : ¬ g ∈ gs := fun hc => hg (List.mem_cons_of_mem _ hc)
    rcases addGroups_cons_ok h with ⟨hc, e1, h1, h2⟩ | ⟨_, h2⟩
    · have he1 := groupRowEdges_ok_edges h1
      rw [ih h2 hgs, he1, List.filter_append, filter_flatMapGroup_other hg0,
        List.append_nil]
    · exact ih h2 hgs

theorem addGroups_edges_hit {df : DataFrame} {sel : List String} {nodes : Dict}
    {edges : List Edge} {out : Dict × List Edge}
    (h : addGroups df sel nodes edges = .ok out) (hnd : sel.Nodup)
    (hp : ∀ r ∈ df.rows, (assocLookup nodes (skeyC r)).isSome)
    {g : String} (hg : g ∈ sel) (hgc : g ∈ df.cols) :
    out.2.filter (isGroupEdgeFrom g) =
      edges.filter (isGroupEdgeFrom g) ++ (trueRows df g).map (groupEdge g) := by
  induction sel generalizing nodes edges with
  | nil => exact absurd hg (List.not_mem_nil _)
  | cons g0 gs ih =>
    rw [List.nodup_cons] at hnd
    rcases List.mem_cons.1 hg with hgg | hgs
    · subst hgg
      rcases addGroups_cons_ok h with ⟨hc, e1, h1, h2⟩ | ⟨hni, _⟩
      · have he1 := groupRowEdges_ok_edges h1
        have hp1 : ∀ r ∈ trueRows df g, (assocLookup
            (assocInsert nodes (Cell.str g) NodeData.groupN) (skeyC r)).isSome :=
          fun r hr => assocLookup_isSome_insert _ _ _ _ (hp r (trueRows_sub hr))
        rw [addGroups_edges_notin h2 hnd.1, he1, List.filter_append,
          filter_flatMapGroup_self, flatMap_groupEdge_of_present hp1]
      · exact absurd hgc hni
    · have hgg0 : g ≠ g0 := fun hc => hnd.1 (hc ▸ hgs)
      rcases addGroups_cons_ok h with ⟨hc, e1, h1, h2⟩ | ⟨_, h2⟩
      · have he1 := groupRowEdges_ok_edges h1
        have hp1 : ∀ r ∈ df.rows, (assocLookup
            (assocInsert nodes (Cell.str g0) NodeData.groupN) (skeyC r)).isSome :=
          fun r hr => assocLookup_isSome_insert _ _ _ _ (hp r hr)
        rw [ih h2 hnd.2 hp1 hgs, he1, List.filter_append,
          filter_flatMapGroup_other hgg0, List.append_nil]
      · exact ih h2 hnd.2 hp hgs

theorem addGroups_edge_inv {df : DataFrame} {sel : List String} {nodes : Dict}
    {edges : List Edge} {out : Dict × List Edge}
    (h : addGroups df sel nodes edges = .ok out)
    (hinv : ∀ e ∈ edges,
      (assocLookup nodes e.source).isSome ∧ (assocLookup nodes e.target).isSome) :
    ∀ e ∈ out.2,
      (assocLookup out.1 e.source).isSome ∧ (assocLookup out.1 e.target).isSome := by
  induction sel generalizing nodes edges with
  | nil =>
    have := Except.ok.inj h
    rw [← this]
    exact hinv
  | cons g0 gs ih =>
    rcases addGroups_cons_ok h with ⟨hc, e1, h1, h2⟩ | ⟨_, h2⟩
    · have he1 := groupRowEdges_ok_edges h1
      refine ih h2 ?_
      intro e he
      rw [he1] at he
      rcases List.mem_append.1 he with h3 | h3
      · obtain ⟨hs, ht⟩ := hinv e h3
        exact ⟨assocLookup_isSome_insert _ _ _ _ hs, assocLookup_isSome_insert _ _ _ _ ht⟩
      · obtain ⟨r, hr, hps, hre⟩ := mem_flatMapGroup h3
        rw [hre]
        refine ⟨?_, hps⟩
        rw [show (groupEdge g0 r).source = Cell.str g0 from rfl, assocLookup_insert_self]
        rfl
    · exact ih h2 hinv

theorem processRows_edge_inv {rows : List Row} {nodes : Dict} {edges : List Edge}
    {out : Dict × List Edge} (h : processRows rows nodes edges = .ok out)
    (hinv : ∀ e ∈ edges,
      (assocLookup nodes e.source).isSome ∧ (assocLookup nodes e.target).isSome) :
    ∀ e ∈ out.2,
      (assocLookup out.1 e.source).isSome ∧ (assocLookup out.1 e.target).isSome := by
  induction rows generalizing nodes edges with
  | nil =>
    have := Except.ok.inj h
    rw [← this]
    exact hinv
  | cons r rs ih =>
    obtain ⟨n1, e1, h1, h2⟩ := processRows_cons_ok h
    obtain ⟨na, nb, h5, h6, hN, hE⟩ := processRow_ok_decomp h1
    simp only at hN hE
    refine ih h2 ?_
    intro e he
    rw [hE] at he
    have hmono : ∀ k, (assocLookup nodes k).isSome → (assocLookup n1 k).isSome := by
      intro k hk
      rw [hN]
      exact subStep_present_mono (bumpNode_present_mono h6 (bumpNode_present_mono h5 hk))
    have hifc : (assocLookup n1 (ifcC r)).isSome := by
      rw [hN]
      exact subStep_present_mono (bumpNode_present_mono h6 (bumpNode_lookup_self_isSome h5))
    have hsys : (assocLookup n1 (sysC r)).isSome := by
      rw [hN]
      exact subStep_present_mono (bumpNode_lookup_self_isSome h6)
    have hskey : (assocLookup n1 (skeyC r)).isSome := by
      rw [hN]
      exact subStep_skey_present _ _
    rcases List.mem_append.1 he with h3 | h3
    · obtain ⟨hs, ht⟩ := hinv e h3
      exact ⟨hmono _ hs, hmono _ ht⟩
    · unfold hierOf at h3
      rcases List.mem_cons.1 h3 with h4 | h4
      · rw [h4]
        exact ⟨hifc, hsys⟩
      · rcases List.mem_cons.1 h4 with h5x | h5x
        · rw [h5x]
          exact ⟨hsys, hskey⟩
        · exact absurd h5x (List.not_mem_nil _)

theorem relLoop_edge_inv {idMap : List (Cell × String)} {rrows : List Row}
    {edges e2 : List Edge} {nodes : Dict} (h : relLoop idMap rrows edges = .ok e2)
    (hinv : ∀ e ∈ edges,
      (assocLookup nodes e.source).isSome ∧ (assocLookup nodes e.target).isSome)
    (hvals : ∀ k w, (k, w) ∈ idMap → (assocLookup nodes (Cell.str w)).isSome) :
    ∀ e ∈ e2,
      (assocLookup nodes e.source).isSome ∧ (assocLookup nodes e.target).isSome := by
  have hchar := relLoop_ok_edges h
  intro e he
  rw [hchar] at he
  rcases List.mem_append.1 he with h3 | h3
  · exact hinv e h3
  · rw [List.mem_flatMap] at h3
    obtain ⟨r, hr, hre⟩ := h3
    obtain ⟨sn, tn, hsn, htn, he'⟩ := relEdgeOf_mem hre
    rw [he']
    exact ⟨hvals _ _ (assocLookup_mem hsn), hvals _ _ (assocLookup_mem htn)⟩

/-! ### Create-level helper facts -/

theorem hier_no_rel (rows : List Row) :
    (rows.flatMap hierOf).filter isRelationEdge = [] := by
  rw [List.filter_eq_nil_iff]
  intro e he
  rw [List.mem_flatMap] at he
  obtain ⟨r, _, hre⟩ := he
  rw [isRelationEdge, hierOf_kind hre]
  exact Bool.false_ne_true

theorem hier_no_group (rows : List Row) (g : String) :
    (rows.flatMap hierOf).filter (isGroupEdgeFrom g) = [] := by
  rw [List.filter_eq_nil_iff]
  intro e he
  rw [List.mem_flatMap] at he
  obtain ⟨r, _, hre⟩ := he
  rw [isGroupEdgeFrom, hierOf_kind hre]
  exact Bool.false_ne_true

theorem rel_no_group {idMap : List (Cell × String)} (rows : List Row) (g : String) :
    (rows.flatMap (relEdgeOf idMap)).filter (isGroupEdgeFrom g) = [] := by
  rw [List.filter_eq_nil_iff]
  intro e he
  rw [List.mem_flatMap] at he
  obtain ⟨r, _, hre⟩ := he
  rw [isGroupEdgeFrom, relEdgeOf_kind hre]
  exact Bool.false_ne_true

theorem create_no_group_edges {df : DataFrame} {nodes : Dict} {edges : List Edge}
    {gcols : List String} (h : create_graph_data df = .ok (nodes, edges, gcols))
    (g : String) : edges.filter (isGroupEdgeFrom g) = [] := by
  obtain ⟨n0, e0, m, rr, e2, hpr, hm, hd, hrl, hout⟩ := create_ok_decomp h
  have hedges : edges = e2 := congrArg (fun x => x.2.1) hout
  have he0 := processRows_ok_edges hpr
  simp only at he0
  have hchar := relLoop_ok_edges hrl
  rw [hedges, hchar, he0]
  simp only [List.nil_append]
  rw [List.filter_append, hier_no_group, rel_no_group]
  rfl

theorem create_no_group_nodes {df : DataFrame} {nodes : Dict} {edges : List Edge}
    {gcols : List String} (h : create_graph_data df = .ok (nodes, edges, gcols))
    (k : Cell) : assocLookup nodes k ≠ some NodeData.groupN := by
  obtain ⟨n0, e0, m, rr, e2, hpr, hm, hd, hrl, hout⟩ := create_ok_decomp h
  have hnodes : nodes = n0 := congrArg (fun x => x.1) hout
  intro hc
  rw [hnodes] at hc
  have hmem := assocLookup_mem hc
  have := processRows_mem_group hpr hmem
  exact absurd this (List.not_mem_nil _)

theorem create_skeys_present {df : DataFrame} {nodes : Dict} {edges : List Edge}
    {gcols : List String} (h : create_graph_data df = .ok (nodes, edges, gcols)) :
    ∀ r ∈ df.rows, (assocLookup nodes (skeyC r)).isSome := by
  obtain ⟨n0, e0, m, rr, e2, hpr, hm, hd, hrl, hout⟩ := create_ok_decomp h
  have hnodes : nodes = n0 := congrArg (fun x => x.1) hout
  intro r hr
  rw [hnodes]
  exact processRows_skey_present hpr r hr

theorem buildWithGroups_ok_decomp {df : DataFrame} {sel : List String} {nodes : Dict}
    {edges : List Edge} (h : buildWithGroups df sel = .ok (nodes, edges)) :
    ∃ n0 e0 g0, create_graph_data df = .ok (n0, e0, g0) ∧
      addGroups df sel n0 e0 = .ok (nodes, edges) := by
  unfold buildWithGroups at h
  cases hc : create_graph_data df with
  | error e => rw [hc] at h; exact absurd h (by simp)
  | ok out =>
    obtain ⟨n0, e0, g0⟩ := out
    rw [hc] at h
    exact ⟨n0, e0, g0, rfl, h⟩

/-! ### Claim C6 -/

/-- C6: whenever `create_graph_data` returns, the edge list contains, for
every row of the table, a `Hierarchy` edge from the row's `Interface`
value to its `System` value and a `Hierarchy` edge from its `System`
value to its sub-topic key. -/
theorem C6_hierarchy_complete {df : DataFrame} {nodes : Dict} {edges : List Edge}
    {gcols : List String} (h : create_graph_data df = .ok (nodes, edges, gcols)) :
    ∀ r ∈ df.rows,
      ({ source := ifcC r, target := sysC r, kind := "Hierarchy", title := none } : Edge)
        ∈ edges ∧
      ({ source := sysC r, target := skeyC r, kind := "Hierarchy", title := none } : Edge)
        ∈ edges := by
  obtain ⟨n0, e0, m, rr, e2, hpr, hm, hd, hrl, hout⟩ := create_ok_decomp h
  have hedges : edges = e2 := congrArg (fun x => x.2.1) hout
  have he0 := processRows_ok_edges hpr
  simp only at he0
  have hchar := relLoop_ok_edges hrl
  intro r hr
  have hmem : ∀ e ∈ hierOf r, e ∈ edges := by
    intro e he
    rw [hedges, hchar]
    refine List.mem_append_left _ ?_
    rw [he0]
    simp only [List.nil_append]
    exact List.mem_flatMap.2 ⟨r, hr, he⟩
  exact ⟨hmem _ (List.mem_cons_self _ _),
    hmem _ (List.mem_cons_of_mem _ (List.mem_cons_self _ _))⟩

/-- C6 witness: the one-row table `dfHier` evaluated concretely at its
single row. -/
theorem C6_hierarchy_complete_witness :
    ({ source := Cell.str "I", target := Cell.str "S", kind := "Hierarchy",
       title := none } : Edge)
      ∈ [({ source := Cell.str "I", target := Cell.str "S", kind := "Hierarchy",
            title := none } : Edge),
         ({ source := Cell.str "S", target := Cell.str "a (#1)", kind := "Hierarchy",
            title := none } : Edge)] ∧
    ({ source := Cell.str "S", target := Cell.str "a (#1)", kind := "Hierarchy",
       title := none } : Edge)
      ∈ [({ source := Cell.str "I", target := Cell.str "S", kind := "Hierarchy",
            title := none } : Edge),
         ({ source := Cell.str "S", target := Cell.str "a (#1)", kind := "Hierarchy",
            title := none } : Edge)] :=
  @C6_hierarchy_complete dfHier
    [(Cell.str "I", NodeData.interfaceN 1), (Cell.str "S", NodeData.systemN 1),
     (Cell.str "a (#1)", NodeData.subTopicN (Cell.str "a"))]
    [({ source := Cell.str "I", target := Cell.str "S", kind := "Hierarchy",
        title := none } : Edge),
     ({ source := Cell.str "S", target := Cell.str "a (#1)", kind := "Hierarchy",
        title := none } : Edge)]
    [] rfl (mkRow "#1" "I" "S" "t" "a" Cell.nan) (by decide)

/-! ### Claim C9 -/

/-- C9: the identifier index maps every `ID` value to the sub-topic key
of the last row in input order carrying that `ID` (last-write-wins), and
its construction never raises for duplicates. -/
theorem C9_last_write_wins {rows : List Row}
    (hcols : ∀ r ∈ rows, r.hasCol "ID" = true ∧ r.hasCol "Sub-Topics" = true) :
    ∃ m, buildIdMap rows [] = .ok m ∧
      ∀ c, assocLookup m c =
        ((rows.filter (fun r => decide (idC r = c))).getLast?).map skeyStr := by
  obtain ⟨m, hm⟩ := @buildIdMap_ok_exists rows [] hcols
  refine ⟨m, hm, fun c => ?_⟩
  rw [buildIdMap_lookup hm c]
  exact option_or_none _

/-- C9 witness: two rows share `ID "#1"`; the index construction succeeds
and resolves `#1` to the last row's sub-topic key. -/
theorem C9_last_write_wins_witness :
    (∀ r ∈ dfDup.rows, r.hasCol "ID" = true ∧ r.hasCol "Sub-Topics" = true) ∧
    ∃ m, buildIdMap dfDup.rows [] = .ok m ∧
      ∀ c, assocLookup m c =
        ((dfDup.rows.filter (fun r => decide (idC r = c))).getLast?).map skeyStr :=
  ⟨by decide, C9_last_write_wins (by decide)⟩

/-! ### Claim C10 -/

/-- C10: whenever the full pipeline (builder plus group pass) returns,
every edge's source and target are keys of the returned node dictionary:
no edge ever points at an unregistered node. -/
theorem C10_endpoints_registered {df : DataFrame} {sel : List String} {nodes : Dict}
    {edges : List Edge} (h : buildWithGroups df sel = .ok (nodes, edges)) :
    ∀ e ∈ edges, (assocLookup nodes e.source).isSome ∧ (assocLookup nodes e.target).isSome := by
  obtain ⟨n0, e0, g0, hc, hag⟩ := buildWithGroups_ok_decomp h
  obtain ⟨nX, eX, m, rr, e2, hpr, hm, hd, hrl, hout⟩ := create_ok_decomp hc
  have hn0 : n0 = nX := congrArg (fun x => x.1) hout
  have he0 : e0 = e2 := congrArg (fun x => x.2.1) hout
  -- all first-pass edges have registered endpoints
  have hinv1 := processRows_edge_inv hpr (fun e he => absurd he (List.not_mem_nil _))
  simp only at hinv1
  -- all identifier-index values are registered sub-topic keys
  have hvals : ∀ k w, (k, w) ∈ m → (assocLookup nX (Cell.str w)).isSome := by
    intro k w hkw
    rcases buildIdMap_values hm hkw with ⟨r, hr, hw⟩ | habs
    · have := processRows_skey_present hpr r hr
      simp only at this
      rw [hw]
      exact this
    · exact absurd habs (List.not_mem_nil _)
  have hinv2 := relLoop_edge_inv hrl hinv1 hvals
  have := addGroups_edge_inv (by rw [hn0, he0] at hag; exact hag) hinv2
  simpa using this

/-- C10 witness: the one-row table with a selected `Critical` group,
evaluated concretely at its `Group` edge. -/
theorem C10_endpoints_registered_witness :
    (assocLookup [(Cell.str "I", NodeData.interfaceN 1),
      (Cell.str "S", NodeData.systemN 1),
      (Cell.str "a (#1)", NodeData.subTopicN (Cell.str "a")),
      (Cell.str "Critical", NodeData.groupN)] (Cell.str "Critical")).isSome ∧
    (assocLookup [(Cell.str "I", NodeData.interfaceN 1),
      (Cell.str "S", NodeData.systemN 1),
      (Cell.str "a (#1)", NodeData.subTopicN (Cell.str "a")),
      (Cell.str "Critical", NodeData.groupN)] (Cell.str "a (#1)")).isSome :=
  @C10_endpoints_registered dfGroup ["Critical"]
    [(Cell.str "I", NodeData.interfaceN 1), (Cell.str "S", NodeData.systemN 1),
     (Cell.str "a (#1)", NodeData.subTopicN (Cell.str "a")),
     (Cell.str "Critical", NodeData.groupN)]
    [({ source := Cell.str "I", target := Cell.str "S", kind := "Hierarchy",
        title := none } : Edge),
     ({ source := Cell.str "S", target := Cell.str "a (#1)", kind := "Hierarchy",
        title := none } : Edge),
     ({ source := Cell.str "Critical", target := Cell.str "a (#1)", kind := "Group",
        title := none } : Edge)]
    rfl ({ source := Cell.str "Critical", target := Cell.str "a (#1)", kind := "Group",
           title := none } : Edge) (by decide)

/-! ### Claim C4 -/

/-- C4: under a well-formed table, the builder succeeds, and the number
of `Relation` edges equals the number of kept relationship rows whose
two index lookups both succeed: a row whose own `ID` or whose normalized
reference is absent from the index contributes no `Relation` edge, and
never makes the build fail. -/
theorem C4_dangling_skipped {df : DataFrame} (hwf : df.wf = true)
    (hRel : "Relationship" ∈ df.cols) (hclean : df.rows.all cleanRow = true) :
    ∃ nodes edges gcols m,
      create_graph_data df = .ok (nodes, edges, gcols) ∧
      buildIdMap df.rows [] = .ok m ∧
      (edges.filter isRelationEdge).length =
        ((dropnaRows df).filter (bothOkRel m)).length := by
  obtain ⟨out, hok⟩ := create_clean_ok hwf hRel hclean
  obtain ⟨n0, e0, m, rr, e2, hpr, hm, hd, hrl, hout⟩ := create_ok_decomp hok
  rw [hout] at hok
  refine ⟨n0, e2, _, m, hok, hm, ?_⟩
  have he0 := processRows_ok_edges hpr
  simp only at he0
  have hrr : rr = dropnaRows df :=
    (Except.ok.inj ((dropnaRelationship_ok hRel).symm.trans hd)).symm
  have hchar := relLoop_ok_edges hrl
  rw [hchar, he0, hrr]
  simp only [List.nil_append]
  rw [List.filter_append, hier_no_rel, List.nil_append]
  have key : ∀ (l : List Row),
      ((l.flatMap (relEdgeOf m)).filter isRelationEdge).length =
        (l.filter (bothOkRel m)).length := by
    intro l
    induction l with
    | nil => rfl
    | cons r rs ih =>
      rw [List.flatMap_cons, List.filter_append, List.length_append, ih]
      have hall : (relEdgeOf m r).filter isRelationEdge = relEdgeOf m r := by
        rw [List.filter_eq_self]
        intro e he
        rw [isRelationEdge, relEdgeOf_kind he]
        rfl
      rw [hall]
      have hlen := relEdgeOf_length m r
      by_cases hb : bothOkRel m r = true
      · rw [List.filter_cons_of_pos hb, List.length_cons, hlen, if_pos hb]
        omega
      · rw [List.filter_cons_of_neg hb, hlen, if_neg hb]
        omega
  exact key (dropnaRows df)

/-- C4 witness: one clean row whose `Relationship` is the dangling
reference `#999`; the build succeeds and the arithmetic shows zero
`Relation` edges. -/
theorem C4_dangling_skipped_witness :
    (dfDangle.wf = true ∧ "Relationship" ∈ dfDangle.cols ∧
      dfDangle.rows.all cleanRow = true) ∧
    ∃ nodes edges gcols m,
      create_graph_data dfDangle = .ok (nodes, edges, gcols) ∧
      buildIdMap dfDangle.rows [] = .ok m ∧
      (edges.filter isRelationEdge).length =
        ((dropnaRows dfDangle).filter (bothOkRel m)).length :=
  ⟨⟨by decide, by decide, by decide⟩,
    C4_dangling_skipped (by decide) (by decide) (by decide)⟩

/-! ### Claim C7 -/

/-- C7 counterexample: one row whose `Interface` and `System` values are
both `"A"`. The value appears in one row, but the shared node dictionary
is bumped twice, so the node's count is 2, not 1 as the claim requires. -/
theorem C7_counterexample :
    dfSelfLoop.rows.length = 1 ∧
    cntIfc dfSelfLoop.rows (Cell.str "A") = 1 ∧
    cntSys dfSelfLoop.rows (Cell.str "A") = 1 ∧
    create_graph_data dfSelfLoop = .ok
      ([(Cell.str "A", NodeData.interfaceN 2),
        (Cell.str "a (#1)", NodeData.subTopicN (Cell.str "a"))],
       [({ source := Cell.str "A", target := Cell.str "A", kind := "Hierarchy",
           title := none } : Edge),
        ({ source := Cell.str "A", target := Cell.str "a (#1)", kind := "Hierarchy",
           title := none } : Edge)], []) :=
  ⟨rfl, rfl, rfl, rfl⟩

/-- C7 amended: provided a value `v` never occurs as a sub-topic key,
an `Interface` value `v` that never occurs in the `System` column gets a
node of type `Interface` whose count is the number of rows whose
`Interface` is `v`; symmetrically for `System` values. When `v` occurs
in both columns the two counts are accumulated on the same node, which
is what the counterexample exhibits. -/
theorem C7_amended {df : DataFrame} {nodes : Dict} {edges : List Edge}
    {gcols : List String} {v : Cell}
    (h : create_graph_data df = .ok (nodes, edges, gcols))
    (hskey : ∀ r ∈ df.rows, skeyC r ≠ v) :
    ((∀ r ∈ df.rows, sysC r ≠ v) → 1 ≤ cntIfc df.rows v →
      assocLookup nodes v = some (.interfaceN (cntIfc df.rows v))) ∧
    ((∀ r ∈ df.rows, ifcC r ≠ v) → 1 ≤ cntSys df.rows v →
      assocLookup nodes v = some (.systemN (cntSys df.rows v))) := by
  obtain ⟨n0, e0, m, rr, e2, hpr, _, _, _, hout⟩ := create_ok_decomp h
  have hn : nodes = n0 := congrArg (fun x => x.1) hout
  constructor
  · intro hsys hcnt
    have hx := processRows_count_interface_none hpr
      (fun r hr => ⟨hsys r hr, hskey r hr⟩) rfl
    simp only at hx
    rw [hn, hx, if_neg (by omega)]
  · intro hifc hcnt
    have hx := processRows_count_system_none hpr
      (fun r hr => ⟨hifc r hr, hskey r hr⟩) rfl
    simp only at hx
    rw [hn, hx, if_neg (by omega)]

/-- C7 witness: `"A"` appears as `Interface` of both rows of `dfTwoIfc`
and never as `System`; its node is `Interface` with count 2. -/
theorem C7_amended_witness :
    assocLookup [(Cell.str "A", NodeData.interfaceN 2),
      (Cell.str "S", NodeData.systemN 2),
      (Cell.str "a (#1)", NodeData.subTopicN (Cell.str "a")),
      (Cell.str "b (#2)", NodeData.subTopicN (Cell.str "b"))] (Cell.str "A") =
      some (NodeData.interfaceN 2) :=
  (@C7_amended dfTwoIfc
    [(Cell.str "A", NodeData.interfaceN 2),
     (Cell.str "S", NodeData.systemN 2),
     (Cell.str "a (#1)", NodeData.subTopicN (Cell.str "a")),
     (Cell.str "b (#2)", NodeData.subTopicN (Cell.str "b"))]
    [({ source := Cell.str "A", target := Cell.str "S", kind := "Hierarchy",
        title := none } : Edge),
     ({ source := Cell.str "S", target := Cell.str "a (#1)", kind := "Hierarchy",
        title := none } : Edge),
     ({ source := Cell.str "A", target := Cell.str "S", kind := "Hierarchy",
        title := none } : Edge),
     ({ source := Cell.str "S", target := Cell.str "b (#2)", kind := "Hierarchy",
        title := none } : Edge)]
    [] (Cell.str "A") rfl (by decide)).1 (by decide) (by decide)

/-! ### Claim C8 -/

/-- C8: for every selected group column present in the table, the output
has the group node keyed by the column name, and its `Group` edges are
exactly one per row whose cell in that column is true, targeting that
row's sub-topic key; a column not selected contributes no `Group` node
and no `Group` edge. -/
theorem C8_group_selection {df : DataFrame} {sel : List String} {nodes : Dict}
    {edges : List Edge} (h : buildWithGroups df sel = .ok (nodes, edges))
    (hnd : sel.Nodup) :
    (∀ g ∈ sel, g ∈ df.cols →
      assocLookup nodes (Cell.str g) = some NodeData.groupN ∧
      edges.filter (isGroupEdgeFrom g) = (trueRows df g).map (groupEdge g)) ∧
    (∀ g', ¬ g' ∈ sel →
      assocLookup nodes (Cell.str g') ≠ some NodeData.groupN ∧
      edges.filter (isGroupEdgeFrom g') = []) := by
  obtain ⟨n0, e0, g0, hc, hag⟩ := buildWithGroups_ok_decomp h
  constructor
  · intro g hg hgc
    constructor
    · have hx := addGroups_hit hag hnd hg hgc
      simpa using hx
    · have hp : ∀ r ∈ df.rows, (assocLookup n0 (skeyC r)).isSome := create_skeys_present hc
      have hx := addGroups_edges_hit hag hnd hp hg hgc
      simp only at hx
      rw [hx, create_no_group_edges hc g, List.nil_append]
  · intro g' hg'
    constructor
    · have hne : ∀ g ∈ sel, Cell.str g ≠ Cell.str g' := by
        intro g hgsel hc'
        exact hg' (Cell.str.inj hc' ▸ hgsel)
      have hx := addGroups_lookup_preserve hag hne
      simp only at hx
      rw [hx]
      exact create_no_group_nodes hc (Cell.str g')
    · have hx := addGroups_edges_notin hag hg'
      simp only at hx
      rw [hx]
      exact create_no_group_edges hc g'

/-- C8 witness: the one-row table with a true `Critical` cell and
`selectedGroups = ["Critical"]`, evaluated concretely. -/
theorem C8_group_selection_witness :
    assocLookup [(Cell.str "I", NodeData.interfaceN 1),
      (Cell.str "S", NodeData.systemN 1),
      (Cell.str "a (#1)", NodeData.subTopicN (Cell.str "a")),
      (Cell.str "Critical", NodeData.groupN)] (Cell.str "Critical") =
        some NodeData.groupN ∧
    ([({ source := Cell.str "I", target := Cell.str "S", kind := "Hierarchy",
         title := none } : Edge),
      ({ source := Cell.str "S", target := Cell.str "a (#1)", kind := "Hierarchy",
         title := none } : Edge),
      ({ source := Cell.str "Critical", target := Cell.str "a (#1)", kind := "Group",
         title := none } : Edge)].filter (isGroupEdgeFrom "Critical")) =
      (trueRows dfGroup "Critical").map (groupEdge "Critical") :=
  (@C8_group_selection dfGroup ["Critical"]
    [(Cell.str "I", NodeData.interfaceN 1), (Cell.str "S", NodeData.systemN 1),
     (Cell.str "a (#1)", NodeData.subTopicN (Cell.str "a")),
     (Cell.str "Critical", NodeData.groupN)]
    [({ source := Cell.str "I", target := Cell.str "S", kind := "Hierarchy",
        title := none } : Edge),
     ({ source := Cell.str "S", target := Cell.str "a (#1)", kind := "Hierarchy",
        title := none } : Edge),
     ({ source := Cell.str "Critical", target := Cell.str "a (#1)", kind := "Group",
        title := none } : Edge)]
    rfl (by decide)).1 "Critical" (by decide) (by decide)

/-! ### Claim C2 -/

/-- C2 counterexample: a table containing all four required columns but
no `Relationship` column makes `create_graph_data` raise — it does not
succeed, because `df.dropna(subset=['Relationship'])` requires the
column. -/
theorem C2_counterexample :
    ("ID" ∈ dfNoRel.cols ∧ "Interface" ∈ dfNoRel.cols ∧ "System" ∈ dfNoRel.cols ∧
      "Sub-Topics" ∈ dfNoRel.cols) ∧
    create_graph_data dfNoRel = .error "KeyError: [Relationship]" :=
  ⟨by decide, rfl⟩

/-- C2 amended: the `Relationship` column must itself be present (its
absence raises a `KeyError` from `dropna`); when it is present but every
value in it is missing, the build succeeds and every returned edge is a
`Hierarchy` edge — in particular there are zero `Relation` edges. -/
theorem C2_amended {df : DataFrame} (hwf : df.wf = true)
    (hRel : "Relationship" ∈ df.cols) (hclean : df.rows.all cleanRow = true)
    (hnan : ∀ r ∈ df.rows, getD r "Relationship" = Cell.nan) :
    ∃ nodes edges gcols, create_graph_data df = .ok (nodes, edges, gcols) ∧
      ∀ e ∈ edges, e.kind = "Hierarchy" := by
  obtain ⟨out, hok⟩ := create_clean_ok hwf hRel hclean
  obtain ⟨n0, e0, m, rr, e2, hpr, hm, hd, hrl, hout⟩ := create_ok_decomp hok
  rw [hout] at hok
  refine ⟨n0, e2, _, hok, ?_⟩
  have he0 := processRows_ok_edges hpr
  simp only at he0
  have hrr : rr = dropnaRows df :=
    (Except.ok.inj ((dropnaRelationship_ok hRel).symm.trans hd)).symm
  have hempty : dropnaRows df = [] := by
    unfold dropnaRows
    rw [List.filter_eq_nil_iff]
    intro r hr
    simp [hnan r hr]
  have hchar := relLoop_ok_edges hrl
  intro e he
  rw [hchar, hrr, hempty, List.flatMap_nil, List.append_nil, he0,
    List.nil_append] at he
  rw [List.mem_flatMap] at he
  obtain ⟨r, _, hre⟩ := he
  exact hierOf_kind hre

/-- C2 witness: the one-row table with a present but empty
`Relationship` column builds with only hierarchy edges. -/
theorem C2_amended_witness :
    (dfHier.wf = true ∧ "Relationship" ∈ dfHier.cols ∧
      dfHier.rows.all cleanRow = true ∧
      ∀ r ∈ dfHier.rows, getD r "Relationship" = Cell.nan) ∧
    ∃ nodes edges gcols, create_graph_data dfHier = .ok (nodes, edges, gcols) ∧
      ∀ e ∈ edges, e.kind = "Hierarchy" :=
  ⟨⟨by decide, by decide, by decide, by decide⟩,
    C2_amended (by decide) (by decide) (by decide) (by decide)⟩

/-! ### Claim C1 -/

/-- C1 counterexample: an empty table missing the required `System`
column does not fail at all — `create_graph_data` returns an empty graph
instead of raising a schema error. -/
theorem C1_counterexample :
    ¬ "System" ∈ dfEmptyNoSystem.cols ∧
    create_graph_data dfEmptyNoSystem = .ok ([], [], []) :=
  ⟨by decide, rfl⟩

theorem processRows_cons_error {r : Row} {rs : List Row} {nodes : Dict} {edges : List Edge}
    {s : String} (h : processRow nodes edges r = .error s) :
    processRows (r :: rs) nodes edges = .error s := by
  unfold processRows
  rw [h]

theorem create_error_of_processRows {df : DataFrame} {s : String}
    (h : processRows df.rows [] [] = .error s) : create_graph_data df = .error s := by
  unfold create_graph_data
  rw [h]

/-- C1 amended: a table with at least one row missing a required column
fails, but with a `KeyError` naming the first required column accessed
that is missing — not a `SchemaError` listing all missing columns — and
no graph is returned because the exception propagates; an empty table
(see the counterexample) does not fail at all. -/
theorem C1_amended {df : DataFrame} (hwf : df.wf = true) (hne : df.rows ≠ [])
    (hmiss : ¬ ("Interface" ∈ df.cols ∧ "System" ∈ df.cols ∧
      "Sub-Topics" ∈ df.cols ∧ "ID" ∈ df.cols)) :
    ∃ c, c ∈ (["Interface", "System", "Sub-Topics", "ID"] : List String) ∧
      ¬ c ∈ df.cols ∧ create_graph_data df = .error ("KeyError: " ++ c) := by
  obtain ⟨r, rs, hrows⟩ : ∃ r rs, df.rows = r :: rs := by
    cases hr : df.rows with
    | nil => exact absurd hr hne
    | cons a l => exact ⟨a, l, rfl⟩
  have hrmem : r ∈ df.rows := by rw [hrows]; exact List.mem_cons_self _ _
  have hcol : ∀ c, r.hasCol c = true ↔ c ∈ df.cols := wf_hasCol hwf hrmem
  have hnotcol : ∀ c, ¬ c ∈ df.cols → r.hasCol c = false := by
    intro c hc
    cases hh : r.hasCol c
    · rfl
    · exact absurd ((hcol c).1 hh) hc
  have herr : ∀ s, processRow [] [] r = .error s →
      create_graph_data df = .error s := by
    intro s hs
    refine create_error_of_processRows ?_
    rw [hrows]
    exact processRows_cons_error hs
  by_cases hI : "Interface" ∈ df.cols
  · by_cases hS : "System" ∈ df.cols
    · by_cases hT : "Sub-Topics" ∈ df.cols
      · by_cases hD : "ID" ∈ df.cols
        · exact absurd ⟨hI, hS, hT, hD⟩ hmiss
        · refine ⟨"ID", by decide, hD, herr _ ?_⟩
          have e1 := rowGet_of_hasCol ((hcol _).2 hI)
          have e2 := rowGet_of_hasCol ((hcol _).2 hS)
          have e3 := rowGet_of_hasCol ((hcol _).2 hT)
          have e4 := rowGet_of_not_hasCol (hnotcol _ hD)
          simp only [processRow, e1, e2, e3, e4]
      · refine ⟨"Sub-Topics", by decide, hT, herr _ ?_⟩
        have e1 := rowGet_of_hasCol ((hcol _).2 hI)
        have e2 := rowGet_of_hasCol ((hcol _).2 hS)
        have e3 := rowGet_of_not_hasCol (hnotcol _ hT)
        simp only [processRow, e1, e2, e3]
    · refine ⟨"System", by decide, hS, herr _ ?_⟩
      have e1 := rowGet_of_hasCol ((hcol _).2 hI)
      have e2 := rowGet_of_not_hasCol (hnotcol _ hS)
      simp only [processRow, e1, e2]
  · refine ⟨"Interface", by decide, hI, herr _ ?_⟩
    have e1 := rowGet_of_not_hasCol (hnotcol _ hI)
    simp only [processRow, e1]

/-- C1 witness: a one-row table missing `System` raises
`KeyError: System`. -/
theorem C1_amended_witness :
    (dfNoSystem.wf = true ∧ dfNoSystem.rows ≠ [] ∧
      ¬ ("Interface" ∈ dfNoSystem.cols ∧ "System" ∈ dfNoSystem.cols ∧
        "Sub-Topics" ∈ dfNoSystem.cols ∧ "ID" ∈ dfNoSystem.cols)) ∧
    ∃ c, c ∈ (["Interface", "System", "Sub-Topics", "ID"] : List String) ∧
      ¬ c ∈ dfNoSystem.cols ∧ create_graph_data dfNoSystem = .error ("KeyError: " ++ c) :=
  ⟨⟨by decide, by decide, by decide⟩,
    C1_amended (by decide) (by decide) (by decide)⟩

/-! ### Claim C3 -/

theorem containsHash_left {a : String} (b : String) (ha : containsHash a = true) :
    containsHash (a ++ b) = true := by
  unfold containsHash at *
  rw [String.data_append, List.any_append, ha, Bool.true_or]

theorem containsHash_right (a : String) {b : String} (hb : containsHash b = true) :
    containsHash (a ++ b) = true := by
  unfold containsHash at *
  rw [String.data_append, List.any_append, hb, Bool.or_true]

theorem c3_create (iA sA tA iB sB tB x : String)
    (hiA : containsHash iA = false) (hsA : containsHash sA = false)
    (hiB : containsHash iB = false) (hsB : containsHash sB = false) :
    ∃ nodes edges gcols,
      create_graph_data (c3Df iA sA tA iB sB tB (Cell.str x)) = .ok (nodes, edges, gcols) ∧
      edges.filter isRelationEdge =
        relEdgeOf [(Cell.str "#1", tA ++ " (" ++ "#1" ++ ")"),
                   (Cell.str "#10", tB ++ " (" ++ "#10" ++ ")")]
          (mkRow "#1" iA sA "t" tA (Cell.str x)) := by
  have hwf : (c3Df iA sA tA iB sB tB (Cell.str x)).wf = true := rfl
  have hRel : "Relationship" ∈ (c3Df iA sA tA iB sB tB (Cell.str x)).cols := by
    simp [c3Df, stdCols]
  have hashA : containsHash (tA ++ " (" ++ "#1" ++ ")") = true :=
    containsHash_left ")" (containsHash_right (tA ++ " (") (by decide))
  have hashB : containsHash (tB ++ " (" ++ "#10" ++ ")") = true :=
    containsHash_left ")" (containsHash_right (tB ++ " (") (by decide))
  have hA : cleanRow (mkRow "#1" iA sA "t" tA (Cell.str x)) = true := by
    show (true && true && true && true && !containsHash iA && !containsHash sA &&
      containsHash (tA ++ " (" ++ "#1" ++ ")")) = true
    rw [hiA, hsA, hashA]
    rfl
  have hB : cleanRow (mkRow "#10" iB sB "t" tB Cell.nan) = true := by
    show (true && true && true && true && !containsHash iB && !containsHash sB &&
      containsHash (tB ++ " (" ++ "#10" ++ ")")) = true
    rw [hiB, hsB, hashB]
    rfl
  have hclean : (c3Df iA sA tA iB sB tB (Cell.str x)).rows.all cleanRow = true := by
    show (cleanRow (mkRow "#1" iA sA "t" tA (Cell.str x)) &&
      (cleanRow (mkRow "#10" iB sB "t" tB Cell.nan) && true)) = true
    rw [hA, hB]
    rfl
  obtain ⟨out, hok⟩ := create_clean_ok hwf hRel hclean
  obtain ⟨n0, e0, m, rr, e2, hpr, hm, hd, hrl, hout⟩ := create_ok_decomp hok
  rw [hout] at hok
  refine ⟨n0, e2, _, hok, ?_⟩
  have hmEq : m = [(Cell.str "#1", tA ++ " (" ++ "#1" ++ ")"),
      (Cell.str "#10", tB ++ " (" ++ "#10" ++ ")")] := by
    have hm2 : buildIdMap (c3Df iA sA tA iB sB tB (Cell.str x)).rows [] =
        .ok [(Cell.str "#1", tA ++ " (" ++ "#1" ++ ")"),
             (Cell.str "#10", tB ++ " (" ++ "#10" ++ ")")] := rfl
    exact Except.ok.inj (hm.symm.trans hm2)
  have hrrEq : rr = [mkRow "#1" iA sA "t" tA (Cell.str x)] := by
    have hd2 : dropnaRelationship (c3Df iA sA tA iB sB tB (Cell.str x)) =
        .ok [mkRow "#1" iA sA "t" tA (Cell.str x)] := rfl
    exact Except.ok.inj (hd.symm.trans hd2)
  have he0 := processRows_ok_edges hpr
  simp only at he0
  have hchar := relLoop_ok_edges hrl
  rw [hchar, he0, hrrEq, hmEq]
  simp only [List.nil_append, List.flatMap_cons, List.flatMap_nil, List.append_nil]
  rw [List.filter_append, hier_no_rel, List.nil_append]
  exact List.filter_eq_self.2 (fun e he => by
    rw [isRelationEdge, relEdgeOf_kind he]
    rfl)

/-- C3 counterexample: with row A `ID "#1"` and row B `ID "#10"`, the
relationship value `"# 10"` contains `#`, is used verbatim, misses the
index, and yields zero `Relation` edges — not the same single edge that
`"10"` yields. -/
theorem C3_counterexample :
    (create_graph_data (c3Df "I1" "S1" "a" "I2" "S2" "b" (Cell.str "# 10"))).map
        (fun out => out.2.1.filter isRelationEdge) = .ok [] ∧
    (create_graph_data (c3Df "I1" "S1" "a" "I2" "S2" "b" (Cell.str "10"))).map
        (fun out => out.2.1.filter isRelationEdge) =
      .ok [({ source := Cell.str "a (#1)", target := Cell.str "b (#10)",
              kind := "Relation", title := some "Relation: #1→#10" } : Edge)] :=
  ⟨rfl, rfl⟩

/-- C3 amended: with row A (`ID "#1"`) and row B (`ID "#10"`),
relationship values `"10"` and `"#10"` each produce exactly the same
single `Relation` edge between the two sub-topic keys; but `"# 10"`,
because it contains `#`, is used verbatim as the target `ID`, fails the
index lookup, and produces no edge at all. -/
theorem C3_amended (iA sA tA iB sB tB : String)
    (hiA : containsHash iA = false) (hsA : containsHash sA = false)
    (hiB : containsHash iB = false) (hsB : containsHash sB = false) :
    ∃ n1 e1 g1 n2 e2 g2 n3 e3 g3,
      create_graph_data (c3Df iA sA tA iB sB tB (Cell.str "10")) = .ok (n1, e1, g1) ∧
      create_graph_data (c3Df iA sA tA iB sB tB (Cell.str "#10")) = .ok (n2, e2, g2) ∧
      create_graph_data (c3Df iA sA tA iB sB tB (Cell.str "# 10")) = .ok (n3, e3, g3) ∧
      e1.filter isRelationEdge =
        [({ source := Cell.str (tA ++ " (#1)"), target := Cell.str (tB ++ " (#10)"),
            kind := "Relation", title := some "Relation: #1→#10" } : Edge)] ∧
      e2.filter isRelationEdge = e1.filter isRelationEdge ∧
      e3.filter isRelationEdge = [] := by
  obtain ⟨n1, e1, g1, h1, hf1⟩ := c3_create iA sA tA iB sB tB "10" hiA hsA hiB hsB
  obtain ⟨n2, e2, g2, h2, hf2⟩ := c3_create iA sA tA iB sB tB "#10" hiA hsA hiB hsB
  obtain ⟨n3, e3, g3, h3, hf3⟩ := c3_create iA sA tA iB sB tB "# 10" hiA hsA hiB hsB
  have ha : tA ++ " (" ++ "#1" ++ ")" = tA ++ " (#1)" := by
    rw [String.append_assoc, String.append_assoc]
    rfl
  have hb : tB ++ " (" ++ "#10" ++ ")" = tB ++ " (#10)" := by
    rw [String.append_assoc, String.append_assoc]
    rfl
  refine ⟨n1, e1, g1, n2, e2, g2, n3, e3, g3, h1, h2, h3, ?_, ?_, ?_⟩
  · rw [hf1]
    rw [show relEdgeOf [(Cell.str "#1", tA ++ " (" ++ "#1" ++ ")"),
          (Cell.str "#10", tB ++ " (" ++ "#10" ++ ")")]
        (mkRow "#1" iA sA "t" tA (Cell.str "10")) =
      [({ source := Cell.str (tA ++ " (" ++ "#1" ++ ")"),
          target := Cell.str (tB ++ " (" ++ "#10" ++ ")"),
          kind := "Relation", title := some "Relation: #1→#10" } : Edge)] from rfl]
    rw [ha, hb]
  · rw [hf2, hf1]
    rfl
  · rw [hf3]
    rfl

/-- C3 witness: the amended statement instantiated at concrete
interface, system and sub-topic texts. -/
theorem C3_amended_witness :
    (containsHash "I1" = false ∧ containsHash "S1" = false ∧
      containsHash "I2" = false ∧ containsHash "S2" = false) ∧
    ∃ n1 e1 g1 n2 e2 g2 n3 e3 g3,
      create_graph_data (c3Df "I1" "S1" "a" "I2" "S2" "b" (Cell.str "10")) =
        .ok (n1, e1, g1) ∧
      create_graph_data (c3Df "I1" "S1" "a" "I2" "S2" "b" (Cell.str "#10")) =
        .ok (n2, e2, g2) ∧
      create_graph_data (c3Df "I1" "S1" "a" "I2" "S2" "b" (Cell.str "# 10")) =
        .ok (n3, e3, g3) ∧
      e1.filter isRelationEdge =
        [({ source := Cell.str ("a" ++ " (#1)"), target := Cell.str ("b" ++ " (#10)"),
            kind := "Relation", title := some "Relation: #1→#10" } : Edge)] ∧
      e2.filter isRelationEdge = e1.filter isRelationEdge ∧
      e3.filter isRelationEdge = [] :=
  ⟨⟨by decide, by decide, by decide, by decide⟩,
    C3_amended "I1" "S1" "a" "I2" "S2" "b" (by decide) (by decide) (by decide) (by decide)⟩

/-! ### Claim C5: key injectivity -/

theorem split_at_marker {c : Char} :
    ∀ (xs ys xs2 ys2 : List Char), ¬ c ∈ xs → ¬ c ∈ xs2 →
      xs ++ c :: ys = xs2 ++ c :: ys2 → xs = xs2 ∧ ys = ys2 := by
  intro xs
  induction xs with
  | nil =>
    intro ys xs2 ys2 _ h2 heq
    cases xs2 with
    | nil =>
      simp only [List.nil_append] at heq
      exact ⟨rfl, (List.cons.inj heq).2⟩
    | cons b m =>
      simp only [List.nil_append, List.cons_append] at heq
      obtain ⟨hb, -⟩ := List.cons.inj heq
      exact absurd (by rw [hb]; exact List.mem_cons_self _ _) h2
  | cons a l ih =>
    intro ys xs2 ys2 h1 h2 heq
    cases xs2 with
    | nil =>
      simp only [List.nil_append, List.cons_append] at heq
      obtain ⟨hb, -⟩ := List.cons.inj heq
      exact absurd (by rw [← hb]; exact List.mem_cons_self _ _) h1
    | cons b m =>
      simp only [List.cons_append] at heq
      obtain ⟨hab, htl⟩ := List.cons.inj heq
      have h1' : ¬ c ∈ l := fun hc => h1 (List.mem_cons_of_mem _ hc)
      have h2' : ¬ c ∈ m := fun hc => h2 (List.mem_cons_of_mem _ hc)
      obtain ⟨hx, hy⟩ := ih ys m ys2 h1' h2' htl
      exact ⟨by rw [hab, hx], hy⟩

theorem not_paren_mem {i : String} (h : containsParen i = false) : ¬ '(' ∈ i.data := by
  intro hc
  rw [containsParen, List.any_eq_false] at h
  have := h '(' hc
  simp at this

theorem keyFn_inj {s1 i1 s2 i2 : String} (h1 : containsParen i1 = false)
    (h2 : containsParen i2 = false) (heq : keyFn (s1, i1) = keyFn (s2, i2)) :
    s1 = s2 ∧ i1 = i2 := by
  have hd : ((s1.data ++ (" (" : String).data) ++ i1.data) ++ (")" : String).data =
      ((s2.data ++ (" (" : String).data) ++ i2.data) ++ (")" : String).data := by
    have := congrArg String.data heq
    simpa only [keyFn, String.data_append] using this
  rw [show ((" (" : String).data) = [' ', '('] from rfl,
    show (")" : String).data = [')'] from rfl] at hd
  have hrev := congrArg List.reverse hd
  simp only [List.reverse_append, List.reverse_cons, List.reverse_nil, List.nil_append,
    List.cons_append, List.append_assoc] at hrev
  obtain ⟨-, htail⟩ := List.cons.inj hrev
  have hm1 : ¬ '(' ∈ i1.data.reverse := fun hc => not_paren_mem h1 (List.mem_reverse.1 hc)
  have hm2 : ¬ '(' ∈ i2.data.reverse := fun hc => not_paren_mem h2 (List.mem_reverse.1 hc)
  obtain ⟨hi, hs⟩ := split_at_marker i1.data.reverse (' ' :: s1.data.reverse)
    i2.data.reverse (' ' :: s2.data.reverse) hm1 hm2 htail
  have hs' := (List.cons.inj hs).2
  constructor
  · exact String.ext (List.reverse_injective hs')
  · exact String.ext (List.reverse_injective hi)

/-- C5 counterexample: the two rows of `dfC5Collide` carry the distinct
pairs `("a (x", "1")` and `("a", "x (1")`, but both render the sub-topic
key `"a (x (1)"`, so the output has one `Sub-Topic` node, not two. -/
theorem C5_counterexample :
    ((dfC5Collide.rows.map pairOf).dedup).length = 2 ∧
    (create_graph_data dfC5Collide).map (fun out => countSubTopic out.1) = .ok 1 :=
  ⟨by decide, rfl⟩

/-- C5 amended: provided every `ID` rendering carries the `#` marker and
no parenthesis (so that sub-topic keys cannot collide with each other or
with `Interface`/`System` keys), the number of `Sub-Topic` nodes equals
the number of distinct `(Sub-Topics, ID)` pairs, and every `Sub-Topic`
node's label is the raw `Sub-Topics` value of a row rendering that key.
Without the parenthesis restriction two distinct pairs can render the
same key, as the counterexample shows. -/
theorem C5_amended {df : DataFrame} (hwf : df.wf = true)
    (hRel : "Relationship" ∈ df.cols) (hclean : df.rows.all cleanRow = true)
    (hid : df.rows.all idClean = true) :
    ∃ nodes edges gcols, create_graph_data df = .ok (nodes, edges, gcols) ∧
      countSubTopic nodes = ((df.rows.map pairOf).dedup).length ∧
      (∀ k l, (k, NodeData.subTopicN l) ∈ nodes →
        ∃ r ∈ df.rows, k = skeyC r ∧ l = rawST r) := by
  obtain ⟨out, hok⟩ := create_clean_ok hwf hRel hclean
  obtain ⟨n0, e0, m, rr, e2, hpr, hm, hd, hrl, hout⟩ := create_ok_decomp hok
  rw [hout] at hok
  refine ⟨n0, e2, _, hok, ?_, ?_⟩
  · have hnodup : ((n0.filter (fun p => p.2.isSubTopic)).map Prod.fst).Nodup := by
      have hk := processRows_keys_nodup hpr (by simp)
      simp only at hk
      exact List.Nodup.sublist (List.Sublist.map _ (List.filter_sublist _)) hk
    have hmemL : ∀ k, k ∈ (n0.filter (fun p => p.2.isSubTopic)).map Prod.fst ↔
        k ∈ df.rows.map skeyC := by
      intro k
      constructor
      · intro hkL
        rw [List.mem_map] at hkL
        obtain ⟨p, hp, hpk⟩ := hkL
        obtain ⟨pk, pv⟩ := p
        rw [List.mem_filter] at hp
        obtain ⟨hpmem, hsub⟩ := hp
        simp only at hpk hsub
        subst hpk
        obtain ⟨l, hpl⟩ : ∃ l, pv = NodeData.subTopicN l := by
          cases hq : pv with
          | subTopicN l => exact ⟨l, rfl⟩
          | interfaceN c => rw [hq] at hsub; exact absurd hsub (by simp [NodeData.isSubTopic])
          | systemN c => rw [hq] at hsub; exact absurd hsub (by simp [NodeData.isSubTopic])
          | groupN => rw [hq] at hsub; exact absurd hsub (by simp [NodeData.isSubTopic])
        subst hpl
        rcases processRows_mem_subTopic hpr hpmem with habs | ⟨r, hr, hkeq, -⟩
        · exact absurd habs (List.not_mem_nil _)
        · rw [List.mem_map]
          exact ⟨r, hr, hkeq.symm⟩
      · intro hk
        rw [List.mem_map] at hk
        obtain ⟨r, hr, hrk⟩ := hk
        obtain ⟨l, hlook⟩ := processRows_skey_subTopic hpr hclean rfl r hr
        have hmem := assocLookup_mem hlook
        rw [List.mem_map]
        refine ⟨(skeyC r, NodeData.subTopicN l), ?_, hrk⟩
        rw [List.mem_filter]
        exact ⟨hmem, rfl⟩
    have h1 : countSubTopic n0 = ((n0.filter (fun p => p.2.isSubTopic)).map Prod.fst).length := by
      rw [countSubTopic, List.length_map]
    have h2 := (List.toFinset_card_of_nodup hnodup).symm
    have h3 : ((n0.filter (fun p => p.2.isSubTopic)).map Prod.fst).toFinset =
        (df.rows.map skeyC).toFinset := by
      apply Finset.ext
      intro k
      rw [List.mem_toFinset, List.mem_toFinset]
      exact hmemL k
    have h4 : (df.rows.map skeyC).toFinset =
        (df.rows.map pairOf).toFinset.image (fun p => Cell.str (keyFn p)) := by
      apply Finset.ext
      intro k
      rw [List.mem_toFinset, Finset.mem_image]
      constructor
      · intro hk
        rw [List.mem_map] at hk
        obtain ⟨r, hr, hrk⟩ := hk
        exact ⟨pairOf r, List.mem_toFinset.2 (List.mem_map.2 ⟨r, hr, rfl⟩), hrk⟩
      · rintro ⟨p, hp, hpk⟩
        rw [List.mem_toFinset, List.mem_map] at hp
        obtain ⟨r, hr, hrp⟩ := hp
        rw [List.mem_map]
        refine ⟨r, hr, ?_⟩
        rw [← hpk, ← hrp]
        rfl
    have hinj : Set.InjOn (fun p => Cell.str (keyFn p))
        ((df.rows.map pairOf).toFinset : Set (String × String)) := by
      intro p hp q hq hpq
      obtain ⟨r1, hr1, hp1⟩ := List.mem_map.1 (List.mem_toFinset.1 (Finset.mem_coe.1 hp))
      obtain ⟨r2, hr2, hp2⟩ := List.mem_map.1 (List.mem_toFinset.1 (Finset.mem_coe.1 hq))
      have hparen : ∀ r ∈ df.rows, containsParen (idC r).asString = false := by
        intro r hr
        have hx := List.all_eq_true.1 hid r hr
        unfold idClean at hx
        rw [Bool.and_eq_true] at hx
        cases hy : containsParen (idC r).asString
        · rfl
        · rw [hy] at hx
          exact absurd hx.2 (by simp)
      have hparen1 : containsParen p.2 = false := by
        rw [← hp1]
        exact hparen r1 hr1
      have hparen2 : containsParen q.2 = false := by
        rw [← hp2]
        exact hparen r2 hr2
      obtain ⟨hs, hi⟩ := keyFn_inj hparen1 hparen2 (Cell.str.inj hpq)
      exact Prod.ext hs hi
    have h5 := Finset.card_image_of_injOn hinj
    have h6 := List.card_toFinset (df.rows.map pairOf)
    rw [h1, h2, h3, h4, h5, h6]
  · intro k l hkl
    rcases processRows_mem_subTopic hpr hkl with habs | ⟨r, hr, hkeq, hleq⟩
    · exact absurd habs (List.not_mem_nil _)
    · exact ⟨r, hr, hkeq, hleq⟩

/-- C5 witness: two rows share the `Sub-Topics` text `"a"` under the
distinct `ID`s `#1` and `#2`; the output has two `Sub-Topic` nodes. -/
theorem C5_amended_witness :
    (dfC5Clean.wf = true ∧ "Relationship" ∈ dfC5Clean.cols ∧
      dfC5Clean.rows.all cleanRow = true ∧ dfC5Clean.rows.all idClean = true) ∧
    ∃ nodes edges gcols, create_graph_data dfC5Clean = .ok (nodes, edges, gcols) ∧
      countSubTopic nodes = ((dfC5Clean.rows.map pairOf).dedup).length ∧
      (∀ k l, (k, NodeData.subTopicN l) ∈ nodes →
        ∃ r ∈ dfC5Clean.rows, k = skeyC r ∧ l = rawST r) :=
  ⟨⟨by decide, by decide, by decide, by decide⟩,
    C5_amended (by decide) (by decide) (by decide) (by decide)⟩

end BubDia
